import Mathlib

/-!
# Verification of the bitswan-gitops-cli provisioning orchestrator

A shallow embedding of the `init` command pipeline (`cmd/init.go`), the
`list` command (`cmd/list.go`) and the docker-hub version resolver
(`internal/dockerhub/dockerhub.go`).

Modelling conventions:

* Filesystem paths are segment lists (`Path := List String`); the Go code
  builds every path by concatenating a parent path, a `/` separator and a
  single segment, which the list model mirrors one segment per component.
  `$HOME` is kept as one opaque segment.
* The filesystem is the list of currently existing paths
  (`FS := List Path`).  Directory removal (`os.RemoveAll`) removes a path
  and every path below it.
* External, non-deterministic outcomes (subprocess exit statuses, HTTP
  probes, registry lookups, `os.Stat` results) are fields of an `Env`
  record, fixed before the run.
* Every side-effecting operation of the pipeline is recorded as an
  `Event`; a run produces an outcome together with its event trace, and
  the final filesystem is obtained by replaying the trace.
* Go control flow is kept one branch per source branch: `return err` sites
  become `Ctl.ret`, `panic(...)` sites become `Ctl.pan`, and the two
  `defer`d `recover` blocks of `run` become the two cleanup points of the
  top-level `run` definition (the later-registered workspace handler wins,
  matching Go LIFO defer order).
-/

namespace BGC

abbrev Path : Type := List String

abbrev FS : Type := List Path

/-- Effects performed by the pipeline, in program order. -/
inductive Event where
  | dockerNetworkCreate
  | mkdirAll (p : Path)
  | writeFile (p : Path)
  | chdir (p : Path)
  | composeUp (project : String) (dir : Path)
  | gitClone (url : String) (dest : Path)
  | gitInitRepo (dir : Path)
  | chownRec (dir : Path) (uid gid : Nat)
  | worktreeAdd (branch : String) (dir : Path)
  | gitConfigSafeDir (dir : Path)
  | gitCommitEmpty (dir : Path)
  | gitPush (branch : String) (dir : Path)
  | caddyApiInit
  | caddyAddRecords (name : String)
  | mkdirTemp (p : Path)
  | mkcertRun (domain : String)
  | renameFile (src dst : Path)
  | removeAll (p : Path)
  deriving DecidableEq, Repr

/-- Replay one event against the set of existing paths. -/
def applyEvent (fs : FS) : Event → FS
  | .mkdirAll p => p :: fs
  | .writeFile p => p :: fs
  | .mkdirTemp p => p :: fs
  | .gitClone _ d => d :: fs
  | .worktreeAdd _ d => d :: fs
  | .renameFile src dst => dst :: fs.filter (fun q => q != src)
  | .removeAll p => fs.filter (fun q => !p.isPrefixOf q)
  | _ => fs

def applyTrace (fs : FS) (t : List Event) : FS :=
  t.foldl applyEvent fs

/-- Errors of the pipeline, one constructor per `return err` / `panic` site
of `cmd/init.go`. -/
inductive RunError where
  | createBitswanConfigDir
  | networkCheckFailed
  | createCaddyConfigDir
  | writeCaddyfile
  | createCaddyCompose
  | writeCaddyCompose
  | chdirCaddy
  | createCaddyCertsDir
  | startCaddy
  | initCaddyApi
  | generateCerts
  | createCertsRoot
  | createCertsDomainDir
  | readCertsDir
  | readCertFile
  | writeCertFile
  | conflict (name : String)
  | createGitopsDir
  | cloneRepo
  | createWorkspaceDir
  | gitInitFailed
  | chownFailed
  | worktreeAddFailed
  | safeDirectory
  | emptyCommit
  | pushUpstream
  | createSecretsDir
  | versionLookupGitops
  | versionLookupEditor
  | createDeploymentDir
  | addCaddyRecords
  | createComposeFile
  | writeComposeFile
  | chdirDeployment
  | startCompose
  | editorPassword
  deriving DecidableEq, Repr

/-- How a stage hands control back: normal continuation, a Go
`return err`, a Go `panic` (recoverable by an enclosing defer), or an
uncatchable abort (a `panic` raised before any recover is registered). -/
inductive Ctl where
  | ok
  | ret (e : RunError)
  | pan (e : RunError)
  | crash (e : RunError)
  deriving DecidableEq, Repr

structure StageOut where
  trace : List Event
  ctl : Ctl
  deriving DecidableEq, Repr

/-- Sequencing of two stage fragments: the second runs only when the first
continued normally; traces accumulate. -/
def StageOut.andThen (a : StageOut) (f : Unit → StageOut) : StageOut :=
  match a.ctl with
  | .ok => let b := f (); ⟨a.trace ++ b.trace, b.ctl⟩
  | c => ⟨a.trace, c⟩

/-- A fragment that performed `t` and continued. -/
def stepOk (t : List Event) : StageOut := ⟨t, .ok⟩

/-- A failed fragment that performed nothing and returned `e` directly. -/
def stepRet (e : RunError) : StageOut := ⟨[], .ret e⟩

/-- A failed fragment that performed nothing and panicked with `e`. -/
def stepPan (e : RunError) : StageOut := ⟨[], .pan e⟩

/-- Result of one whole invocation of `run`: `recovered e` means a panic
was intercepted by a deferred recover (the process then returns normally
after its cleanup), `crash e` an unrecovered panic. -/
inductive Outcome where
  | success
  | errorReturn (e : RunError)
  | recovered (e : RunError)
  | crash (e : RunError)
  deriving DecidableEq, Repr

structure RunOut where
  outcome : Outcome
  trace : List Event
  deriving DecidableEq, Repr

/-! ## Path layout (`cmd/init.go` / `cmd/list.go`) -/

/-- `os.Getenv("HOME") + "/.config/bitswan/"`. -/
def bitswanRoot (home : String) : Path := [home, ".config", "bitswan"]

/-- `bitswanConfig + "caddy"`. -/
def caddyConfigPath (home : String) : Path := bitswanRoot home ++ ["caddy"]

/-- `caddyConfig + "/Caddyfile"`. -/
def caddyfilePath (home : String) : Path := caddyConfigPath home ++ ["Caddyfile"]

/-- `caddyConfig + "/docker-compose.yml"`. -/
def caddyComposePath (home : String) : Path :=
  caddyConfigPath home ++ ["docker-compose.yml"]

/-- `caddyConfig + "/certs"`. -/
def caddyCertsPath (home : String) : Path := caddyConfigPath home ++ ["certs"]

/-- `bitswanConfig + gitopsName`. -/
def gitopsConfigPath (home name : String) : Path := bitswanRoot home ++ [name]

/-! ## `changeOwnership` (`cmd/init.go`, lines 98-118)

The recursive `chown` subprocess either succeeds or fails
(`ChownEnv.chownOk`); on failure the code falls back to `os.Stat`
(`ChownEnv.stat`, `none` when the stat itself errors).  On the target
platform `FileInfo.Sys()` always yields a `*syscall.Stat_t`, so the
type-assertion branch always succeeds and is not a separate outcome. -/

structure FileStat where
  uid : Nat
  gid : Nat
  deriving DecidableEq, Repr

structure ChownEnv where
  chownOk : Bool
  stat : Option FileStat
  deriving DecidableEq, Repr

inductive ChownError where
  | statFailed
  | notOwner
  deriving DecidableEq, Repr

/-- `changeOwnership(directory, uid, gid)`: `none` is success.  The
fallback compares only `stat.Uid` with the requested uid, exactly as the
source does (`gid` is passed to the chown subprocess but never to the
fallback check). -/
def changeOwnership (e : ChownEnv) (uid _gid : Nat) : Option ChownError :=
  if e.chownOk then none
  else
    match e.stat with
    | none => some .statFailed
    | some st => if st.uid = uid then none else some .notOwner

/-! ## Version resolver (`internal/dockerhub/dockerhub.go`) -/

def isHexChar (c : Char) : Bool :=
  c.isDigit || (97 ≤ c.toNat && c.toNat ≤ 102) || (65 ≤ c.toNat && c.toNat ≤ 70)

/-- The fixed dated-build pattern: the Go regexp
`\d{4}-\d+-git-[a-fA-F0-9]+` anchored at both ends — four digits, a dash,
one or more digits, the literal `-git-`, one or more hexadecimal
characters. -/
def datedBuildTag (s : String) : Bool :=
  match s.data with
  | a :: b :: c :: d :: '-' :: rest =>
    a.isDigit && b.isDigit && c.isDigit && d.isDigit &&
    (let ds := rest.takeWhile Char.isDigit
     let rest2 := rest.dropWhile Char.isDigit
     !ds.isEmpty &&
     (match rest2 with
      | '-' :: 'g' :: 'i' :: 't' :: '-' :: hs => !hs.isEmpty && hs.all isHexChar
      | _ => false))
  | _ => false

/-- `GetLatestBitswanGitopsVersion`, abstracted over the tag names the
registry returned (in response order).  The Go loop returns the first tag
matching the pattern; with no match it returns `"latest"` together with
the error `"No valid version found"`. -/
def GetLatestBitswanGitopsVersion (tags : List String) : String × Option String :=
  match tags.find? (fun t => datedBuildTag t) with
  | some t => (t, none)
  | none => ("latest", some "No valid version found")

/-! ## `list` command (`cmd/list.go`, lines 23-41) -/

/-- The directory the `list` command enumerates:
`filepath.Join(HOME, ".config", "bitswan", "workspaces")`. -/
def listWorkspacesRoot (home : String) : Path :=
  bitswanRoot home ++ ["workspaces"]

/-- The immediate child test used when replaying `os.ReadDir` over the
modelled filesystem. -/
def childNameOf (root p : Path) : Option String :=
  if root.isPrefixOf p ∧ p.length = root.length + 1 then p.getLast? else none

/-- The read-only `list` command: errors when the workspaces directory is
missing, otherwise names every immediate subdirectory. -/
def listCmd (fs : FS) (home : String) : Except String (List String) :=
  let root := listWorkspacesRoot home
  if root ∈ fs then
    .ok (fs.filterMap (fun p => childNameOf root p))
  else
    .error "workspaces directory not found"

/-! ## CLI argument handling (`cmd/init.go`, lines 48-53 and 337-341) -/

/-- `cobra.RangeArgs(1, 2)`. -/
def initArgsValid (n : Nat) : Bool := 1 ≤ n && n ≤ 2

/-- `gitopsName := "gitops"; if len(args) == 1 { gitopsName = args[0] }`. -/
def gitopsNameOf (args : List String) : String :=
  if args.length = 1 then args.headD "gitops" else "gitops"

example : gitopsNameOf ["demo"] = "demo" := by decide
example : gitopsNameOf ["a", "b"] = "gitops" := by decide
example : datedBuildTag "2024-11-git-abc123" = true := by decide
example : datedBuildTag "latest" = false := by decide
example : datedBuildTag "bad-tag" = false := by decide
example :
    GetLatestBitswanGitopsVersion ["latest", "2024-11-git-abc123", "bad-tag"]
      = ("2024-11-git-abc123", none) := by decide

/-! ## The environment of one `run` invocation

One field per external interaction of `cmd/init.go`, in program order.
`Bool` fields record whether the call succeeded; `Option` fields carry the
value a successful call produced (`none` = the call errored). -/

structure Env where
  home : String
  /-- paths existing before the invocation -/
  fs0 : FS
  /-- `checkNetworkExists`: `none` = the docker listing itself errored -/
  networkCheck : Option Bool
  mkdirBitswanOk : Bool
  /-- the 2-second probe of `http://localhost:2019` answered -/
  caddyProbeRunning : Bool
  mkdirCaddyOk : Bool
  writeCaddyfileOk : Bool
  renderCaddyComposeOk : Bool
  writeCaddyComposeOk : Bool
  chdirCaddyOk : Bool
  mkdirCaddyCertsOk : Bool
  caddyUpOk : Bool
  caddyApiInitOk : Bool
  /-- `generateWildcardCerts`: the temporary directory name on success -/
  mkcertsResult : Option String
  mkdirCertsRootOk : Bool
  mkdirCertsDomainOk : Bool
  /-- `os.ReadDir` over the certificate source: regular-file names -/
  readCertsDir : Option (List String)
  readCertFileOk : String → Bool
  writeCertFileOk : String → Bool
  mkdirGitopsOk : Bool
  gitCloneOk : Bool
  mkdirWorkspaceOk : Bool
  gitInitOk : Bool
  chownWorkspace : ChownEnv
  worktreeAddOk : Bool
  safeDirOk : Bool
  emptyCommitOk : Bool
  pushOk : Bool
  mkdirSecretsOk : Bool
  chownSecrets : ChownEnv
  gitopsVersion : Option String
  editorVersion : Option String
  mkdirDeployOk : Bool
  addRecordsOk : Bool
  /-- `CreateDockerComposeFile`: rendered yaml and deploy token -/
  renderCompose : Option (String × String)
  writeComposeOk : Bool
  chdirDeployOk : Bool
  composeUpOk : Bool
  editorPasswordLookup : Option String

/-- The `initOptions` flag set (`cmd/init.go`, lines 20-28). -/
structure Opts where
  remoteRepo : String
  domain : String
  certsDir : String
  mkCerts : Bool
  noIde : Bool
  gitopsImage : String
  editorImage : String
  deriving DecidableEq, Repr

/-! ## Pipeline stages (`cmd/init.go`, `run`) -/

/-- Lines 164-193: ensure the config root exists, then the idempotent
network check-then-create.  A failing network listing panics with no
recover registered yet (process abort); a failing network create is only
logged and the pipeline continues. -/
def setupStage (env : Env) (fs : FS) : StageOut :=
  (if bitswanRoot env.home ∈ fs then stepOk []
   else if env.mkdirBitswanOk then stepOk [.mkdirAll (bitswanRoot env.home)]
   else stepRet .createBitswanConfigDir).andThen fun _ =>
  match env.networkCheck with
  | none => ⟨[], .crash .networkCheckFailed⟩
  | some true => stepOk []
  | some false => stepOk [.dockerNetworkCreate]

/-- Lines 218-250: the part of the caddy bootstrap up to the working
directory change — config directory, static Caddyfile, rendered proxy
compose file. -/
def caddyWriteConfig (env : Env) : StageOut :=
  (if env.mkdirCaddyOk then stepOk [.mkdirAll (caddyConfigPath env.home)]
   else stepRet .createCaddyConfigDir).andThen fun _ =>
  (if env.writeCaddyfileOk then stepOk [.writeFile (caddyfilePath env.home)]
   else stepPan .writeCaddyfile).andThen fun _ =>
  (if env.renderCaddyComposeOk then stepOk []
   else stepPan .createCaddyCompose).andThen fun _ =>
  (if env.writeCaddyComposeOk then stepOk [.writeFile (caddyComposePath env.home)]
   else stepPan .writeCaddyCompose).andThen fun _ =>
  (if env.chdirCaddyOk then stepOk [.chdir (caddyConfigPath env.home)]
   else stepPan .chdirCaddy)

/-- Lines 259-280: the certificate-store directory, the proxy stack
startup and the one-time admin-API bootstrap.  `fsNow` is the filesystem
at the `os.Stat` of the certs directory. -/
def caddyStartProxy (env : Env) (fsNow : FS) : StageOut :=
  (if caddyCertsPath env.home ∈ fsNow then stepOk []
   else if env.mkdirCaddyCertsOk then stepOk [.mkdirAll (caddyCertsPath env.home)]
   else stepRet .createCaddyCertsDir).andThen fun _ =>
  (⟨[.composeUp "bitswan-caddy" (caddyConfigPath env.home)],
    if env.caddyUpOk then .ok else .ret .startCaddy⟩ : StageOut).andThen fun _ =>
  (if env.caddyApiInitOk then stepOk [.caddyApiInit]
   else stepPan .initCaddyApi)

/-- Lines 207-283: probe the admin endpoint; when it does not answer,
write the static config, then ensure the certificate store, start the
stack and run the one-time admin-API bootstrap.  Failure sites are
modelled exactly as in the source: the two `MkdirAll` failures and the
`docker compose up` failure are direct returns, the remaining failures
panic. -/
def caddyStage (env : Env) (fs : FS) : StageOut :=
  if env.caddyProbeRunning then stepOk []
  else
    match (caddyWriteConfig env).ctl with
    | .ok =>
      ⟨(caddyWriteConfig env).trace ++
          (caddyStartProxy env (applyTrace fs (caddyWriteConfig env).trace)).trace,
        (caddyStartProxy env (applyTrace fs (caddyWriteConfig env).trace)).ctl⟩
    | c => ⟨(caddyWriteConfig env).trace, c⟩

/-- The trace of a successful `generateWildcardCerts` (lines 120-161):
a fresh temporary directory, the `mkcert` invocation and the two renames
to the canonical file names. -/
def mkcertsTrace (tmp domain : String) : List Event :=
  [.mkdirTemp [tmp], .chdir [tmp], .mkcertRun domain,
   .renameFile [tmp, "_wildcard." ++ domain ++ "-key.pem"] [tmp, "private-key.pem"],
   .renameFile [tmp, "_wildcard." ++ domain ++ ".pem"] [tmp, "full-chain.pem"]]

/-- The per-file copy loop of the certificate install (lines 316-332):
a failing read or write of a certificate file panics. -/
def copyCerts (env : Env) (names : List String) (dst : Path) : StageOut :=
  match names with
  | [] => stepOk []
  | n :: rest =>
    if env.readCertFileOk n = false then stepPan .readCertFile
    else if env.writeCertFileOk n = false then stepPan .writeCertFile
    else
      let r := copyCerts env rest dst
      ⟨.writeFile (dst ++ [n]) :: r.trace, r.ctl⟩

/-- The `os.Stat`-guarded creation of `caddy/certs` (lines 297-302). -/
def installCertsRootStep (env : Env) (fs : FS) : StageOut :=
  if caddyCertsPath env.home ∈ fs then stepOk []
  else if env.mkdirCertsRootOk then stepOk [.mkdirAll (caddyCertsPath env.home)]
  else stepRet .createCertsRoot

/-- Lines 295-335: install certificates from a source directory into
`caddy/certs/<domain>/`.  The two `MkdirAll` failures return directly;
a failing `ReadDir` panics (line 313). -/
def installCerts (env : Env) (o : Opts) (fs : FS) : StageOut :=
  (installCertsRootStep env fs).andThen fun _ =>
  (if caddyCertsPath env.home ++ [o.domain]
        ∈ applyTrace fs (installCertsRootStep env fs).trace then stepOk []
   else if env.mkdirCertsDomainOk then
     stepOk [.mkdirAll (caddyCertsPath env.home ++ [o.domain])]
   else stepRet .createCertsDomainDir).andThen fun _ =>
  match env.readCertsDir with
  | none => stepPan .readCertsDir
  | some names => copyCerts env names (caddyCertsPath env.home ++ [o.domain])

/-- The body run when `--mkcerts` generation succeeded with temporary
directory `tmp`: the generation trace, then (for the non-empty source
string) the install. -/
def certStageGen (env : Env) (o : Opts) (fs : FS) (tmp : String) : StageOut :=
  if tmp ≠ "" then
    ⟨mkcertsTrace tmp o.domain ++
        (installCerts env o (applyTrace fs (mkcertsTrace tmp o.domain))).trace,
      (installCerts env o (applyTrace fs (mkcertsTrace tmp o.domain))).ctl⟩
  else stepOk (mkcertsTrace tmp o.domain)

/-- Lines 285-335: the certificate source is the `--certs-dir` flag unless
`--mkcerts` generated one; a failing generation returns directly; an empty
source string skips the install. -/
def certStage (env : Env) (o : Opts) (fs : FS) : StageOut :=
  if o.mkCerts then
    match env.mkcertsResult with
    | none => stepRet .generateCerts
    | some tmp => certStageGen env o fs tmp
  else if o.certsDir ≠ "" then installCerts env o fs
  else stepOk []

/-- Step 4 / SecretManager helper: the chown subprocess always runs (the
event is always emitted); a surviving error is a direct return
(lines 387-389, 431-433). -/
def chownStep (ce : ChownEnv) (dir : Path) : StageOut :=
  match changeOwnership ce 1000 1000 with
  | none => stepOk [.chownRec dir 1000 1000]
  | some _ => ⟨[.chownRec dir 1000 1000], .ret .chownFailed⟩

/-- Lines 353-423: the WorkspaceProvisioner stage — conflict guard,
workspace directory, clone-or-init, ownership, orphan worktree, safe
directory, and (with a remote) the initial commit and push. -/
def workspaceStage (env : Env) (o : Opts) (name : String) (fs : FS) : StageOut :=
  if gitopsConfigPath env.home name ∈ fs then ⟨[], .ret (.conflict name)⟩
  else
    (if env.mkdirGitopsOk then stepOk [.mkdirAll (gitopsConfigPath env.home name)]
     else stepRet .createGitopsDir).andThen fun _ =>
    (if o.remoteRepo ≠ "" then
       if env.gitCloneOk then
         stepOk [.gitClone o.remoteRepo (gitopsConfigPath env.home name ++ ["workspace"])]
       else stepPan .cloneRepo
     else
       (if env.mkdirWorkspaceOk then
          stepOk [.mkdirAll (gitopsConfigPath env.home name ++ ["workspace"])]
        else stepRet .createWorkspaceDir).andThen fun _ =>
       (⟨[.gitInitRepo (gitopsConfigPath env.home name ++ ["workspace"])],
         if env.gitInitOk then .ok else .pan .gitInitFailed⟩ : StageOut)).andThen fun _ =>
    (chownStep env.chownWorkspace
      (gitopsConfigPath env.home name ++ ["workspace"])).andThen fun _ =>
    (⟨[.worktreeAdd name (gitopsConfigPath env.home name ++ ["gitops"])],
      if env.worktreeAddOk then .ok else .pan .worktreeAddFailed⟩ : StageOut).andThen fun _ =>
    (⟨[.gitConfigSafeDir (gitopsConfigPath env.home name ++ ["gitops"])],
      if env.safeDirOk then .ok else .pan .safeDirectory⟩ : StageOut).andThen fun _ =>
    (if o.remoteRepo ≠ "" then
       (⟨[.gitCommitEmpty (gitopsConfigPath env.home name ++ ["gitops"])],
         if env.emptyCommitOk then .ok else .pan .emptyCommit⟩ : StageOut).andThen fun _ =>
       (⟨[.gitPush name (gitopsConfigPath env.home name ++ ["gitops"])],
         if env.pushOk then .ok else .pan .pushUpstream⟩ : StageOut)
     else stepOk [])

/-- Lines 426-433: the SecretManager stage — restrictive secrets directory
plus the same ownership reassignment. -/
def secretStage (env : Env) (gc : Path) : StageOut :=
  (if env.mkdirSecretsOk then stepOk [.mkdirAll (gc ++ ["secrets"])]
   else stepRet .createSecretsDir).andThen fun _ =>
  chownStep env.chownSecrets (gc ++ ["secrets"])

/-- Lines 435-519: the DeploymentComposer stage — image resolution,
deployment directory, proxy route registration, compose rendering and
writing, stack startup and the optional editor-password lookup.  Only the
deployment-directory `MkdirAll` failure is a direct return; every other
failure panics. -/
def composerStage (env : Env) (o : Opts) (name : String) (gc : Path) : StageOut :=
  (if o.gitopsImage ≠ "" then stepOk []
   else match env.gitopsVersion with
        | some _ => stepOk []
        | none => stepPan .versionLookupGitops).andThen fun _ =>
  (if o.editorImage ≠ "" then stepOk []
   else match env.editorVersion with
        | some _ => stepOk []
        | none => stepPan .versionLookupEditor).andThen fun _ =>
  (if env.mkdirDeployOk then stepOk [.mkdirAll (gc ++ ["deployment"])]
   else stepRet .createDeploymentDir).andThen fun _ =>
  (⟨[.caddyAddRecords name],
    if env.addRecordsOk then .ok else .pan .addCaddyRecords⟩ : StageOut).andThen fun _ =>
  (match env.renderCompose with
   | some _ => stepOk []
   | none => stepPan .createComposeFile).andThen fun _ =>
  (if env.writeComposeOk then stepOk [.writeFile (gc ++ ["deployment", "docker-compose.yml"])]
   else stepPan .writeComposeFile).andThen fun _ =>
  (if env.chdirDeployOk then stepOk [.chdir (gc ++ ["deployment"])]
   else stepPan .chdirDeployment).andThen fun _ =>
  (⟨[.composeUp (name ++ "-site") (gc ++ ["deployment"])],
    if env.composeUpOk then .ok else .pan .startCompose⟩ : StageOut).andThen fun _ =>
  (if o.noIde then stepOk []
   else match env.editorPasswordLookup with
        | some _ => stepOk []
        | none => stepPan .editorPassword)

/-- The whole of `run` (`cmd/init.go`, lines 163-527).  A panic inside the
caddy or certificate stages is recovered by the first deferred handler,
which removes the whole proxy config directory; a panic from the workspace
stage onward is recovered by the second (later-registered, hence
first-run) handler, which removes only the workspace config directory. -/
def run (env : Env) (args : List String) (o : Opts) : RunOut :=
  let s0 := setupStage env env.fs0
  match s0.ctl with
  | .ret e => ⟨.errorReturn e, s0.trace⟩
  | .pan e => ⟨.crash e, s0.trace⟩
  | .crash e => ⟨.crash e, s0.trace⟩
  | .ok =>
    let fs1 := applyTrace env.fs0 s0.trace
    let c1 := caddyStage env fs1
    match c1.ctl with
    | .ret e => ⟨.errorReturn e, s0.trace ++ c1.trace⟩
    | .pan e => ⟨.recovered e,
        s0.trace ++ c1.trace ++ [.removeAll (caddyConfigPath env.home)]⟩
    | .crash e => ⟨.crash e, s0.trace ++ c1.trace⟩
    | .ok =>
      let fs2 := applyTrace fs1 c1.trace
      let c2 := certStage env o fs2
      match c2.ctl with
      | .ret e => ⟨.errorReturn e, s0.trace ++ c1.trace ++ c2.trace⟩
      | .pan e => ⟨.recovered e,
          s0.trace ++ c1.trace ++ c2.trace ++ [.removeAll (caddyConfigPath env.home)]⟩
      | .crash e => ⟨.crash e, s0.trace ++ c1.trace ++ c2.trace⟩
      | .ok =>
        let name := gitopsNameOf args
        let gc := gitopsConfigPath env.home name
        let fs3 := applyTrace fs2 c2.trace
        let w := workspaceStage env o name fs3
        match w.ctl with
        | .ret e => ⟨.errorReturn e, s0.trace ++ c1.trace ++ c2.trace ++ w.trace⟩
        | .pan e => ⟨.recovered e,
            s0.trace ++ c1.trace ++ c2.trace ++ w.trace ++ [.removeAll gc]⟩
        | .crash e => ⟨.crash e, s0.trace ++ c1.trace ++ c2.trace ++ w.trace⟩
        | .ok =>
          let sec := secretStage env gc
          match sec.ctl with
          | .ret e => ⟨.errorReturn e,
              s0.trace ++ c1.trace ++ c2.trace ++ w.trace ++ sec.trace⟩
          | .pan e => ⟨.recovered e,
              s0.trace ++ c1.trace ++ c2.trace ++ w.trace ++ sec.trace ++ [.removeAll gc]⟩
          | .crash e => ⟨.crash e,
              s0.trace ++ c1.trace ++ c2.trace ++ w.trace ++ sec.trace⟩
          | .ok =>
            let d := composerStage env o name gc
            match d.ctl with
            | .ret e => ⟨.errorReturn e,
                s0.trace ++ c1.trace ++ c2.trace ++ w.trace ++ sec.trace ++ d.trace⟩
            | .pan e => ⟨.recovered e,
                s0.trace ++ c1.trace ++ c2.trace ++ w.trace ++ sec.trace ++ d.trace
                  ++ [.removeAll gc]⟩
            | .crash e => ⟨.crash e,
                s0.trace ++ c1.trace ++ c2.trace ++ w.trace ++ sec.trace ++ d.trace⟩
            | .ok => ⟨.success,
                s0.trace ++ c1.trace ++ c2.trace ++ w.trace ++ sec.trace ++ d.trace⟩

/-- The filesystem after an invocation: the initial state with the run
trace replayed. -/
def fsAfterRun (env : Env) (args : List String) (o : Opts) : FS :=
  applyTrace env.fs0 (run env args o).trace

/-! ## Concrete environments used by witnesses and counterexamples -/

/-- All flags at their zero values (no remote, no certs, no custom
images), with a domain set. -/
def oDefault : Opts := ⟨"", "example.com", "", false, false, "", ""⟩

def chownOkEnv : ChownEnv := ⟨true, some ⟨1000, 1000⟩⟩

/-- An invocation in which every external interaction succeeds and a proxy
is already answering on the admin port. -/
def envAllOk : Env where
  home := "h"
  fs0 := []
  networkCheck := some true
  mkdirBitswanOk := true
  caddyProbeRunning := true
  mkdirCaddyOk := true
  writeCaddyfileOk := true
  renderCaddyComposeOk := true
  writeCaddyComposeOk := true
  chdirCaddyOk := true
  mkdirCaddyCertsOk := true
  caddyUpOk := true
  caddyApiInitOk := true
  mkcertsResult := some "tmpcerts"
  mkdirCertsRootOk := true
  mkdirCertsDomainOk := true
  readCertsDir := some []
  readCertFileOk := fun _ => true
  writeCertFileOk := fun _ => true
  mkdirGitopsOk := true
  gitCloneOk := true
  mkdirWorkspaceOk := true
  gitInitOk := true
  chownWorkspace := chownOkEnv
  worktreeAddOk := true
  safeDirOk := true
  emptyCommitOk := true
  pushOk := true
  mkdirSecretsOk := true
  chownSecrets := chownOkEnv
  gitopsVersion := some "2024-1-git-ab"
  editorVersion := some "2024-1-git-ab"
  mkdirDeployOk := true
  addRecordsOk := true
  renderCompose := some ("yaml", "token")
  writeComposeOk := true
  chdirDeployOk := true
  composeUpOk := true
  editorPasswordLookup := some "pw"

example : (run envAllOk ["demo"] oDefault).outcome = .success := by decide

example :
    gitopsConfigPath "h" "demo" ∈ fsAfterRun envAllOk ["demo"] oDefault := by decide

example :
    (run { envAllOk with fs0 := [bitswanRoot "h", gitopsConfigPath "h" "demo"] }
        ["demo"] oDefault).outcome
      = .errorReturn (.conflict "demo") := by decide

example :
    (run { envAllOk with composeUpOk := false } ["demo"] oDefault).outcome
      = .recovered .startCompose := by decide

example :
    gitopsConfigPath "h" "demo"
      ∉ fsAfterRun { envAllOk with composeUpOk := false } ["demo"] oDefault := by decide

/-! ## Trace replay lemmas -/

theorem applyTrace_append (fs : FS) (t u : List Event) :
    applyTrace fs (t ++ u) = applyTrace (applyTrace fs t) u := by
  simp [applyTrace, List.foldl_append]

theorem applyTrace_cons (fs : FS) (e : Event) (t : List Event) :
    applyTrace fs (e :: t) = applyTrace (applyEvent fs e) t := rfl

theorem applyTrace_nil (fs : FS) : applyTrace fs [] = fs := rfl

/-- Events that never delete an existing path. -/
def removesNothing : Event → Bool
  | .removeAll _ => false
  | .renameFile _ _ => false
  | _ => true

theorem mem_applyEvent_of_mem {fs : FS} {q : Path} {e : Event}
    (he : removesNothing e = true) (hq : q ∈ fs) : q ∈ applyEvent fs e := by
  cases e <;> simp [removesNothing] at he <;>
    first
      | exact hq
      | exact List.mem_cons_of_mem _ hq

theorem mem_applyTrace_of_mem {q : Path} {t : List Event}
    (ht : ∀ e ∈ t, removesNothing e = true) :
    ∀ {fs : FS}, q ∈ fs → q ∈ applyTrace fs t := by
  induction t with
  | nil => intro fs hq; exact hq
  | cons e t ih =>
    intro fs hq
    rw [applyTrace_cons]
    exact ih (fun x hx => ht x (List.mem_cons_of_mem _ hx))
      (mem_applyEvent_of_mem (ht e (List.mem_cons_self _ _)) hq)

theorem not_mem_applyEvent_removeAll {fs : FS} {p q : Path} (hpq : p <+: q) :
    q ∉ applyEvent fs (.removeAll p) := by
  intro hq
  simp only [applyEvent, List.mem_filter, Bool.not_eq_true'] at hq
  rw [← List.isPrefixOf_iff_prefix] at hpq
  simp [hpq] at hq

theorem mem_applyEvent_removeAll_of_mem {fs : FS} {p q : Path}
    (hpq : ¬ p <+: q) (hq : q ∈ fs) : q ∈ applyEvent fs (.removeAll p) := by
  simp only [applyEvent, List.mem_filter, Bool.not_eq_true']
  refine ⟨hq, ?_⟩
  rw [← List.isPrefixOf_iff_prefix] at hpq
  exact Bool.not_eq_true _ ▸ eq_false_of_ne_true hpq

theorem not_mem_applyTrace_concat_removeAll {fs : FS} {t : List Event} {p q : Path}
    (hpq : p <+: q) : q ∉ applyTrace fs (t ++ [.removeAll p]) := by
  rw [applyTrace_append]
  exact not_mem_applyEvent_removeAll hpq

/-- Membership in the trace of a sequenced pair of fragments. -/
theorem mem_andThen_trace {a : StageOut} {f : Unit → StageOut} {e : Event}
    (h : e ∈ (a.andThen f).trace) : e ∈ a.trace ∨ e ∈ (f ()).trace := by
  unfold StageOut.andThen at h
  rcases hctl : a.ctl <;> rw [hctl] at h <;> simp at h <;> tauto

/-! ## Which events each stage can emit -/

theorem chownStep_trace (ce : ChownEnv) (dir : Path) :
    (chownStep ce dir).trace = [.chownRec dir 1000 1000] := by
  unfold chownStep
  rcases changeOwnership ce 1000 1000 <;> rfl

theorem setupStage_shape {env : Env} {fs : FS} {e : Event}
    (h : e ∈ (setupStage env fs).trace) :
    e = .mkdirAll (bitswanRoot env.home) ∨ e = .dockerNetworkCreate := by
  unfold setupStage at h
  rcases mem_andThen_trace h with h | h
  · split at h
    · simp [stepOk] at h
    · split at h <;> simp [stepOk, stepRet] at h
      left; exact h
  · rcases hnc : env.networkCheck with _ | b
    · rw [hnc] at h; simp at h
    · rw [hnc] at h
      rcases b <;> simp [stepOk] at h
      right; exact h

theorem secretStage_shape {env : Env} {gc : Path} {e : Event}
    (h : e ∈ (secretStage env gc).trace) :
    e = .mkdirAll (gc ++ ["secrets"]) ∨ e = .chownRec (gc ++ ["secrets"]) 1000 1000 := by
  unfold secretStage at h
  rcases mem_andThen_trace h with h | h
  · split at h <;> simp [stepOk, stepRet] at h
    left; exact h
  · rw [chownStep_trace] at h
    simp at h
    right; exact h

theorem composerStage_shape {env : Env} {o : Opts} {name : String} {gc : Path} {e : Event}
    (h : e ∈ (composerStage env o name gc).trace) :
    e = .mkdirAll (gc ++ ["deployment"]) ∨ e = .caddyAddRecords name ∨
      e = .writeFile (gc ++ ["deployment", "docker-compose.yml"]) ∨
      e = .chdir (gc ++ ["deployment"]) ∨
      e = .composeUp (name ++ "-site") (gc ++ ["deployment"]) := by
  unfold composerStage at h
  rcases mem_andThen_trace h with h | h
  · split at h
    · simp [stepOk] at h
    · rcases hv : env.gitopsVersion <;> rw [hv] at h <;> simp [stepOk, stepPan] at h
  rcases mem_andThen_trace h with h | h
  · split at h
    · simp [stepOk] at h
    · rcases hv : env.editorVersion <;> rw [hv] at h <;> simp [stepOk, stepPan] at h
  rcases mem_andThen_trace h with h | h
  · split at h <;> simp [stepOk, stepRet] at h
    tauto
  rcases mem_andThen_trace h with h | h
  · simp at h; tauto
  rcases mem_andThen_trace h with h | h
  · rcases hv : env.renderCompose <;> rw [hv] at h <;> simp [stepOk, stepPan] at h
  rcases mem_andThen_trace h with h | h
  · split at h <;> simp [stepOk, stepPan] at h
    tauto
  rcases mem_andThen_trace h with h | h
  · split at h <;> simp [stepOk, stepPan] at h
    tauto
  rcases mem_andThen_trace h with h | h
  · simp at h; tauto
  · split at h
    · simp [stepOk] at h
    · rcases hv : env.editorPasswordLookup <;> rw [hv] at h <;> simp [stepOk, stepPan] at h

theorem workspaceStage_shape {env : Env} {o : Opts} {name : String} {fs : FS} {e : Event}
    (h : e ∈ (workspaceStage env o name fs).trace) :
    e = .mkdirAll (gitopsConfigPath env.home name) ∨
      e = .gitClone o.remoteRepo (gitopsConfigPath env.home name ++ ["workspace"]) ∨
      e = .mkdirAll (gitopsConfigPath env.home name ++ ["workspace"]) ∨
      e = .gitInitRepo (gitopsConfigPath env.home name ++ ["workspace"]) ∨
      e = .chownRec (gitopsConfigPath env.home name ++ ["workspace"]) 1000 1000 ∨
      e = .worktreeAdd name (gitopsConfigPath env.home name ++ ["gitops"]) ∨
      e = .gitConfigSafeDir (gitopsConfigPath env.home name ++ ["gitops"]) ∨
      e = .gitCommitEmpty (gitopsConfigPath env.home name ++ ["gitops"]) ∨
      e = .gitPush name (gitopsConfigPath env.home name ++ ["gitops"]) := by
  unfold workspaceStage at h
  split at h
  · simp at h
  rcases mem_andThen_trace h with h | h
  · split at h <;> simp [stepOk, stepRet] at h
    tauto
  rcases mem_andThen_trace h with h | h
  · split at h
    · split at h <;> simp [stepOk, stepPan] at h
      tauto
    · rcases mem_andThen_trace h with h | h
      · split at h <;> simp [stepOk, stepRet] at h
        tauto
      · simp at h; tauto
  rcases mem_andThen_trace h with h | h
  · rw [chownStep_trace] at h; simp at h; tauto
  rcases mem_andThen_trace h with h | h
  · simp at h; tauto
  rcases mem_andThen_trace h with h | h
  · simp at h; tauto
  · split at h
    · rcases mem_andThen_trace h with h | h <;> simp at h <;> tauto
    · simp [stepOk] at h

theorem caddyWriteConfig_shape {env : Env} {e : Event}
    (h : e ∈ (caddyWriteConfig env).trace) :
    e = .mkdirAll (caddyConfigPath env.home) ∨
      e = .writeFile (caddyfilePath env.home) ∨
      e = .writeFile (caddyComposePath env.home) ∨
      e = .chdir (caddyConfigPath env.home) := by
  unfold caddyWriteConfig at h
  rcases mem_andThen_trace h with h | h
  · split at h <;> simp [stepOk, stepRet] at h
    tauto
  rcases mem_andThen_trace h with h | h
  · split at h <;> simp [stepOk, stepPan] at h
    tauto
  rcases mem_andThen_trace h with h | h
  · split at h <;> simp [stepOk, stepPan] at h
  rcases mem_andThen_trace h with h | h
  · split at h <;> simp [stepOk, stepPan] at h
    tauto
  · split at h <;> simp [stepOk, stepPan] at h
    tauto

theorem caddyStartProxy_shape {env : Env} {fsNow : FS} {e : Event}
    (h : e ∈ (caddyStartProxy env fsNow).trace) :
    e = .mkdirAll (caddyCertsPath env.home) ∨
      e = .composeUp "bitswan-caddy" (caddyConfigPath env.home) ∨
      e = .caddyApiInit := by
  unfold caddyStartProxy at h
  rcases mem_andThen_trace h with h | h
  · split at h
    · simp [stepOk] at h
    · split at h <;> simp [stepOk, stepRet] at h
      tauto
  rcases mem_andThen_trace h with h | h
  · simp at h; tauto
  · split at h <;> simp [stepOk, stepPan] at h
    tauto

theorem caddyStage_shape {env : Env} {fs : FS} {e : Event}
    (h : e ∈ (caddyStage env fs).trace) :
    e = .mkdirAll (caddyConfigPath env.home) ∨
      e = .writeFile (caddyfilePath env.home) ∨
      e = .writeFile (caddyComposePath env.home) ∨
      e = .chdir (caddyConfigPath env.home) ∨
      e = .mkdirAll (caddyCertsPath env.home) ∨
      e = .composeUp "bitswan-caddy" (caddyConfigPath env.home) ∨
      e = .caddyApiInit := by
  unfold caddyStage at h
  split at h
  · simp [stepOk] at h
  rcases hc : (caddyWriteConfig env).ctl <;> rw [hc] at h <;> simp at h
  · rcases h with h | h
    · have := caddyWriteConfig_shape h; tauto
    · have := caddyStartProxy_shape h; tauto
  · have := caddyWriteConfig_shape h; tauto
  · have := caddyWriteConfig_shape h; tauto
  · have := caddyWriteConfig_shape h; tauto

theorem copyCerts_shape {env : Env} {names : List String} {dst : Path} {e : Event}
    (h : e ∈ (copyCerts env names dst).trace) :
    ∃ n, e = .writeFile (dst ++ [n]) := by
  induction names with
  | nil => simp [copyCerts, stepOk] at h
  | cons n rest ih =>
    unfold copyCerts at h
    split at h
    · simp [stepPan] at h
    split at h
    · simp [stepPan] at h
    · simp at h
      rcases h with h | h
      · exact ⟨n, h⟩
      · exact ih h

theorem installCerts_shape {env : Env} {o : Opts} {fs : FS} {e : Event}
    (h : e ∈ (installCerts env o fs).trace) :
    e = .mkdirAll (caddyCertsPath env.home) ∨
      e = .mkdirAll (caddyCertsPath env.home ++ [o.domain]) ∨
      ∃ n, e = .writeFile (caddyCertsPath env.home ++ [o.domain] ++ [n]) := by
  unfold installCerts at h
  rcases mem_andThen_trace h with h | h
  · unfold installCertsRootStep at h
    split at h
    · simp [stepOk] at h
    · split at h <;> simp [stepOk, stepRet] at h
      tauto
  rcases mem_andThen_trace h with h | h
  · split at h
    · simp [stepOk] at h
    · split at h <;> simp [stepOk, stepRet] at h
      tauto
  · rcases hv : env.readCertsDir with _ | names <;> rw [hv] at h
    · simp [stepPan] at h
    · have := copyCerts_shape h; tauto

theorem certStage_shape {env : Env} {o : Opts} {fs : FS} {e : Event}
    (h : e ∈ (certStage env o fs).trace) :
    (∃ tmp, e = .mkdirTemp [tmp]) ∨ (∃ tmp, e = .chdir [tmp]) ∨
      e = .mkcertRun o.domain ∨ (∃ src dst, e = .renameFile src dst) ∨
      e = .mkdirAll (caddyCertsPath env.home) ∨
      e = .mkdirAll (caddyCertsPath env.home ++ [o.domain]) ∨
      ∃ n, e = .writeFile (caddyCertsPath env.home ++ [o.domain] ++ [n]) := by
  unfold certStage at h
  split at h
  · rcases hv : env.mkcertsResult with _ | tmp <;> rw [hv] at h <;> simp only [] at h
    · simp [stepRet] at h
    · unfold certStageGen at h
      split at h
      · simp only [StageOut.trace, List.mem_append] at h
        rcases h with h | h
        · simp [mkcertsTrace] at h
          rcases h with h | h | h | h | h <;> subst h
          · exact Or.inl ⟨tmp, rfl⟩
          · exact Or.inr (Or.inl ⟨tmp, rfl⟩)
          · tauto
          · exact Or.inr (Or.inr (Or.inr (Or.inl ⟨_, _, rfl⟩)))
          · exact Or.inr (Or.inr (Or.inr (Or.inl ⟨_, _, rfl⟩)))
        · have := installCerts_shape h; tauto
      · simp [stepOk, mkcertsTrace] at h
        rcases h with h | h | h | h | h <;> subst h
        · exact Or.inl ⟨tmp, rfl⟩
        · exact Or.inr (Or.inl ⟨tmp, rfl⟩)
        · tauto
        · exact Or.inr (Or.inr (Or.inr (Or.inl ⟨_, _, rfl⟩)))
        · exact Or.inr (Or.inr (Or.inr (Or.inl ⟨_, _, rfl⟩)))
  split at h
  · have := installCerts_shape h; tauto
  · simp [stepOk] at h

/-! ## How `run` composes the stages

One equation per way the pipeline can end, each conditioned on the exact
stage results.  The cleanup appended in the `pan` equations is the
corresponding deferred recover of the source. -/

theorem run_caddy_ret {env : Env} {args : List String} {o : Opts}
    {t0 t1 : List Event} {e : RunError}
    (h0 : setupStage env env.fs0 = ⟨t0, .ok⟩)
    (h1 : caddyStage env (applyTrace env.fs0 t0) = ⟨t1, .ret e⟩) :
    run env args o = ⟨.errorReturn e, t0 ++ t1⟩ := by
  unfold run
  simp only [h0, h1]

theorem run_caddy_pan {env : Env} {args : List String} {o : Opts}
    {t0 t1 : List Event} {e : RunError}
    (h0 : setupStage env env.fs0 = ⟨t0, .ok⟩)
    (h1 : caddyStage env (applyTrace env.fs0 t0) = ⟨t1, .pan e⟩) :
    run env args o
      = ⟨.recovered e, t0 ++ t1 ++ [.removeAll (caddyConfigPath env.home)]⟩ := by
  unfold run
  simp only [h0, h1]

theorem run_workspace_ret {env : Env} {args : List String} {o : Opts}
    {t0 t1 t2 t3 : List Event} {e : RunError}
    (h0 : setupStage env env.fs0 = ⟨t0, .ok⟩)
    (h1 : caddyStage env (applyTrace env.fs0 t0) = ⟨t1, .ok⟩)
    (h2 : certStage env o (applyTrace (applyTrace env.fs0 t0) t1) = ⟨t2, .ok⟩)
    (h3 : workspaceStage env o (gitopsNameOf args)
        (applyTrace (applyTrace (applyTrace env.fs0 t0) t1) t2) = ⟨t3, .ret e⟩) :
    run env args o = ⟨.errorReturn e, t0 ++ t1 ++ t2 ++ t3⟩ := by
  unfold run
  simp only [h0, h1, h2, h3]

theorem run_workspace_pan {env : Env} {args : List String} {o : Opts}
    {t0 t1 t2 t3 : List Event} {e : RunError}
    (h0 : setupStage env env.fs0 = ⟨t0, .ok⟩)
    (h1 : caddyStage env (applyTrace env.fs0 t0) = ⟨t1, .ok⟩)
    (h2 : certStage env o (applyTrace (applyTrace env.fs0 t0) t1) = ⟨t2, .ok⟩)
    (h3 : workspaceStage env o (gitopsNameOf args)
        (applyTrace (applyTrace (applyTrace env.fs0 t0) t1) t2) = ⟨t3, .pan e⟩) :
    run env args o = ⟨.recovered e, t0 ++ t1 ++ t2 ++ t3
        ++ [.removeAll (gitopsConfigPath env.home (gitopsNameOf args))]⟩ := by
  unfold run
  simp only [h0, h1, h2, h3]

theorem run_workspace_crash {env : Env} {args : List String} {o : Opts}
    {t0 t1 t2 t3 : List Event} {e : RunError}
    (h0 : setupStage env env.fs0 = ⟨t0, .ok⟩)
    (h1 : caddyStage env (applyTrace env.fs0 t0) = ⟨t1, .ok⟩)
    (h2 : certStage env o (applyTrace (applyTrace env.fs0 t0) t1) = ⟨t2, .ok⟩)
    (h3 : workspaceStage env o (gitopsNameOf args)
        (applyTrace (applyTrace (applyTrace env.fs0 t0) t1) t2) = ⟨t3, .crash e⟩) :
    run env args o = ⟨.crash e, t0 ++ t1 ++ t2 ++ t3⟩ := by
  unfold run
  simp only [h0, h1, h2, h3]

theorem run_secret_ret {env : Env} {args : List String} {o : Opts}
    {t0 t1 t2 t3 t4 : List Event} {e : RunError}
    (h0 : setupStage env env.fs0 = ⟨t0, .ok⟩)
    (h1 : caddyStage env (applyTrace env.fs0 t0) = ⟨t1, .ok⟩)
    (h2 : certStage env o (applyTrace (applyTrace env.fs0 t0) t1) = ⟨t2, .ok⟩)
    (h3 : workspaceStage env o (gitopsNameOf args)
        (applyTrace (applyTrace (applyTrace env.fs0 t0) t1) t2) = ⟨t3, .ok⟩)
    (h4 : secretStage env (gitopsConfigPath env.home (gitopsNameOf args)) = ⟨t4, .ret e⟩) :
    run env args o = ⟨.errorReturn e, t0 ++ t1 ++ t2 ++ t3 ++ t4⟩ := by
  unfold run
  simp only [h0, h1, h2, h3, h4]

theorem run_secret_pan {env : Env} {args : List String} {o : Opts}
    {t0 t1 t2 t3 t4 : List Event} {e : RunError}
    (h0 : setupStage env env.fs0 = ⟨t0, .ok⟩)
    (h1 : caddyStage env (applyTrace env.fs0 t0) = ⟨t1, .ok⟩)
    (h2 : certStage env o (applyTrace (applyTrace env.fs0 t0) t1) = ⟨t2, .ok⟩)
    (h3 : workspaceStage env o (gitopsNameOf args)
        (applyTrace (applyTrace (applyTrace env.fs0 t0) t1) t2) = ⟨t3, .ok⟩)
    (h4 : secretStage env (gitopsConfigPath env.home (gitopsNameOf args)) = ⟨t4, .pan e⟩) :
    run env args o = ⟨.recovered e, t0 ++ t1 ++ t2 ++ t3 ++ t4
        ++ [.removeAll (gitopsConfigPath env.home (gitopsNameOf args))]⟩ := by
  unfold run
  simp only [h0, h1, h2, h3, h4]

theorem run_secret_crash {env : Env} {args : List String} {o : Opts}
    {t0 t1 t2 t3 t4 : List Event} {e : RunError}
    (h0 : setupStage env env.fs0 = ⟨t0, .ok⟩)
    (h1 : caddyStage env (applyTrace env.fs0 t0) = ⟨t1, .ok⟩)
    (h2 : certStage env o (applyTrace (applyTrace env.fs0 t0) t1) = ⟨t2, .ok⟩)
    (h3 : workspaceStage env o (gitopsNameOf args)
        (applyTrace (applyTrace (applyTrace env.fs0 t0) t1) t2) = ⟨t3, .ok⟩)
    (h4 : secretStage env (gitopsConfigPath env.home (gitopsNameOf args)) = ⟨t4, .crash e⟩) :
    run env args o = ⟨.crash e, t0 ++ t1 ++ t2 ++ t3 ++ t4⟩ := by
  unfold run
  simp only [h0, h1, h2, h3, h4]

theorem run_composer_ret {env : Env} {args : List String} {o : Opts}
    {t0 t1 t2 t3 t4 t5 : List Event} {e : RunError}
    (h0 : setupStage env env.fs0 = ⟨t0, .ok⟩)
    (h1 : caddyStage env (applyTrace env.fs0 t0) = ⟨t1, .ok⟩)
    (h2 : certStage env o (applyTrace (applyTrace env.fs0 t0) t1) = ⟨t2, .ok⟩)
    (h3 : workspaceStage env o (gitopsNameOf args)
        (applyTrace (applyTrace (applyTrace env.fs0 t0) t1) t2) = ⟨t3, .ok⟩)
    (h4 : secretStage env (gitopsConfigPath env.home (gitopsNameOf args)) = ⟨t4, .ok⟩)
    (h5 : composerStage env o (gitopsNameOf args)
        (gitopsConfigPath env.home (gitopsNameOf args)) = ⟨t5, .ret e⟩) :
    run env args o = ⟨.errorReturn e, t0 ++ t1 ++ t2 ++ t3 ++ t4 ++ t5⟩ := by
  unfold run
  simp only [h0, h1, h2, h3, h4, h5]

theorem run_composer_pan {env : Env} {args : List String} {o : Opts}
    {t0 t1 t2 t3 t4 t5 : List Event} {e : RunError}
    (h0 : setupStage env env.fs0 = ⟨t0, .ok⟩)
    (h1 : caddyStage env (applyTrace env.fs0 t0) = ⟨t1, .ok⟩)
    (h2 : certStage env o (applyTrace (applyTrace env.fs0 t0) t1) = ⟨t2, .ok⟩)
    (h3 : workspaceStage env o (gitopsNameOf args)
        (applyTrace (applyTrace (applyTrace env.fs0 t0) t1) t2) = ⟨t3, .ok⟩)
    (h4 : secretStage env (gitopsConfigPath env.home (gitopsNameOf args)) = ⟨t4, .ok⟩)
    (h5 : composerStage env o (gitopsNameOf args)
        (gitopsConfigPath env.home (gitopsNameOf args)) = ⟨t5, .pan e⟩) :
    run env args o = ⟨.recovered e, t0 ++ t1 ++ t2 ++ t3 ++ t4 ++ t5
        ++ [.removeAll (gitopsConfigPath env.home (gitopsNameOf args))]⟩ := by
  unfold run
  simp only [h0, h1, h2, h3, h4, h5]

theorem run_composer_crash {env : Env} {args : List String} {o : Opts}
    {t0 t1 t2 t3 t4 t5 : List Event} {e : RunError}
    (h0 : setupStage env env.fs0 = ⟨t0, .ok⟩)
    (h1 : caddyStage env (applyTrace env.fs0 t0) = ⟨t1, .ok⟩)
    (h2 : certStage env o (applyTrace (applyTrace env.fs0 t0) t1) = ⟨t2, .ok⟩)
    (h3 : workspaceStage env o (gitopsNameOf args)
        (applyTrace (applyTrace (applyTrace env.fs0 t0) t1) t2) = ⟨t3, .ok⟩)
    (h4 : secretStage env (gitopsConfigPath env.home (gitopsNameOf args)) = ⟨t4, .ok⟩)
    (h5 : composerStage env o (gitopsNameOf args)
        (gitopsConfigPath env.home (gitopsNameOf args)) = ⟨t5, .crash e⟩) :
    run env args o = ⟨.crash e, t0 ++ t1 ++ t2 ++ t3 ++ t4 ++ t5⟩ := by
  unfold run
  simp only [h0, h1, h2, h3, h4, h5]

theorem andThen_ok {a : StageOut} {f : Unit → StageOut}
    (h : (a.andThen f).ctl = .ok) : a.ctl = .ok ∧ (f ()).ctl = .ok := by
  unfold StageOut.andThen at h
  rcases hc : a.ctl <;> rw [hc] at h <;> simp_all

theorem andThen_trace_of_ok {a : StageOut} {f : Unit → StageOut}
    (h : a.ctl = .ok) : (a.andThen f).trace = a.trace ++ (f ()).trace := by
  unfold StageOut.andThen
  rw [h]

/-- Nothing the workspace stage does removes a path. -/
theorem workspaceStage_removesNothing (env : Env) (o : Opts) (name : String) (fs : FS) :
    ∀ e ∈ (workspaceStage env o name fs).trace, removesNothing e = true := by
  intro e he
  rcases workspaceStage_shape he with h | h | h | h | h | h | h | h | h <;> subst h <;> rfl

/-- Nothing the secrets stage does removes a path. -/
theorem secretStage_removesNothing (env : Env) (gc : Path) :
    ∀ e ∈ (secretStage env gc).trace, removesNothing e = true := by
  intro e he
  rcases secretStage_shape he with h | h <;> subst h <;> rfl

/-- Nothing the deployment-composer stage does removes a path. -/
theorem composerStage_removesNothing (env : Env) (o : Opts) (name : String) (gc : Path) :
    ∀ e ∈ (composerStage env o name gc).trace, removesNothing e = true := by
  intro e he
  rcases composerStage_shape he with h | h | h | h | h <;> subst h <;> rfl

/-- The conflict guard: an existing workspace config directory makes the
workspace stage return at once, with an empty trace. -/
theorem workspaceStage_of_mem {env : Env} (o : Opts) {name : String} {fs : FS}
    (hmem : gitopsConfigPath env.home name ∈ fs) :
    workspaceStage env o name fs = ⟨[], .ret (.conflict name)⟩ := by
  unfold workspaceStage
  rw [if_pos hmem]

/-- A workspace config path is a path prefix of the proxy config path only
for the workspace literally named caddy. -/
theorem gitops_prefix_caddy {home name : String}
    (h : gitopsConfigPath home name <+: caddyConfigPath home) : name = "caddy" := by
  unfold gitopsConfigPath caddyConfigPath at h
  rw [List.prefix_append_right_inj, List.cons_prefix_cons] at h
  exact h.1

/-- The workspace stack project name can never collide with the fixed
proxy project name: the suffixes differ. -/
theorem site_suffix_ne (name : String) : name ++ "-site" ≠ "bitswan-caddy" := by
  intro h
  have h2 : name.data ++ "-site".data = "bitswan-caddy".data := by
    rw [← h]; rfl
  have h3 := congrArg List.reverse h2
  rw [List.reverse_append] at h3
  have e1 : ("-site".data).reverse = ['e', 't', 'i', 's', '-'] := rfl
  have e2 : ("bitswan-caddy".data).reverse
      = ['y', 'd', 'd', 'a', 'c', '-', 'n', 'a', 'w', 's', 't', 'i', 'b'] := rfl
  rw [e1, e2, List.cons_append] at h3
  injection h3 with h4 h5
  exact absurd h4 (by decide)

theorem run_success_eq {env : Env} {args : List String} {o : Opts}
    {t0 t1 t2 t3 t4 t5 : List Event}
    (h0 : setupStage env env.fs0 = ⟨t0, .ok⟩)
    (h1 : caddyStage env (applyTrace env.fs0 t0) = ⟨t1, .ok⟩)
    (h2 : certStage env o (applyTrace (applyTrace env.fs0 t0) t1) = ⟨t2, .ok⟩)
    (h3 : workspaceStage env o (gitopsNameOf args)
        (applyTrace (applyTrace (applyTrace env.fs0 t0) t1) t2) = ⟨t3, .ok⟩)
    (h4 : secretStage env (gitopsConfigPath env.home (gitopsNameOf args)) = ⟨t4, .ok⟩)
    (h5 : composerStage env o (gitopsNameOf args)
        (gitopsConfigPath env.home (gitopsNameOf args)) = ⟨t5, .ok⟩) :
    run env args o = ⟨.success, t0 ++ t1 ++ t2 ++ t3 ++ t4 ++ t5⟩ := by
  unfold run
  simp only [h0, h1, h2, h3, h4, h5]

theorem run_setup_ret {env : Env} {args : List String} {o : Opts}
    {t0 : List Event} {e : RunError}
    (h0 : setupStage env env.fs0 = ⟨t0, .ret e⟩) :
    run env args o = ⟨.errorReturn e, t0⟩ := by
  unfold run
  simp only [h0]

theorem run_setup_pan {env : Env} {args : List String} {o : Opts}
    {t0 : List Event} {e : RunError}
    (h0 : setupStage env env.fs0 = ⟨t0, .pan e⟩) :
    run env args o = ⟨.crash e, t0⟩ := by
  unfold run
  simp only [h0]

theorem run_setup_crash {env : Env} {args : List String} {o : Opts}
    {t0 : List Event} {e : RunError}
    (h0 : setupStage env env.fs0 = ⟨t0, .crash e⟩) :
    run env args o = ⟨.crash e, t0⟩ := by
  unfold run
  simp only [h0]

theorem run_caddy_crash {env : Env} {args : List String} {o : Opts}
    {t0 t1 : List Event} {e : RunError}
    (h0 : setupStage env env.fs0 = ⟨t0, .ok⟩)
    (h1 : caddyStage env (applyTrace env.fs0 t0) = ⟨t1, .crash e⟩) :
    run env args o = ⟨.crash e, t0 ++ t1⟩ := by
  unfold run
  simp only [h0, h1]

theorem run_cert_ret {env : Env} {args : List String} {o : Opts}
    {t0 t1 t2 : List Event} {e : RunError}
    (h0 : setupStage env env.fs0 = ⟨t0, .ok⟩)
    (h1 : caddyStage env (applyTrace env.fs0 t0) = ⟨t1, .ok⟩)
    (h2 : certStage env o (applyTrace (applyTrace env.fs0 t0) t1) = ⟨t2, .ret e⟩) :
    run env args o = ⟨.errorReturn e, t0 ++ t1 ++ t2⟩ := by
  unfold run
  simp only [h0, h1, h2]

theorem run_cert_pan {env : Env} {args : List String} {o : Opts}
    {t0 t1 t2 : List Event} {e : RunError}
    (h0 : setupStage env env.fs0 = ⟨t0, .ok⟩)
    (h1 : caddyStage env (applyTrace env.fs0 t0) = ⟨t1, .ok⟩)
    (h2 : certStage env o (applyTrace (applyTrace env.fs0 t0) t1) = ⟨t2, .pan e⟩) :
    run env args o
      = ⟨.recovered e, t0 ++ t1 ++ t2 ++ [.removeAll (caddyConfigPath env.home)]⟩ := by
  unfold run
  simp only [h0, h1, h2]

theorem run_cert_crash {env : Env} {args : List String} {o : Opts}
    {t0 t1 t2 : List Event} {e : RunError}
    (h0 : setupStage env env.fs0 = ⟨t0, .ok⟩)
    (h1 : caddyStage env (applyTrace env.fs0 t0) = ⟨t1, .ok⟩)
    (h2 : certStage env o (applyTrace (applyTrace env.fs0 t0) t1) = ⟨t2, .crash e⟩) :
    run env args o = ⟨.crash e, t0 ++ t1 ++ t2⟩ := by
  unfold run
  simp only [h0, h1, h2]

/-! ## Claim theorems -/

theorem find?_eq_head?_filter {α : Type} (p : α → Bool) (l : List α) :
    l.find? p = (l.filter p).head? := by
  induction l with
  | nil => rfl
  | cons a l ih =>
    by_cases h : p a = true
    · rw [List.find?_cons_of_pos _ h, List.filter_cons_of_pos h]
      rfl
    · rw [List.find?_cons_of_neg _ h, List.filter_cons_of_neg h, ih]

/-- C7: the resolver returns the first tag of the registry listing that
matches the dated-build pattern — on the claim's two concrete inputs it
returns `"2024-11-git-abc123"` and the error `"No valid version found"`
respectively — and whenever the registry lists matching tags newest-first
(with respect to any recency order `newer`), the returned tag is the
newest matching one. -/
theorem version_resolver_newest_match (tags : List String)
    (newer : String → String → Prop)
    (hsorted : (tags.filter (fun t => datedBuildTag t)).Pairwise newer) :
    GetLatestBitswanGitopsVersion ["latest", "2024-11-git-abc123", "bad-tag"]
        = ("2024-11-git-abc123", none)
    ∧ GetLatestBitswanGitopsVersion ["latest", "bad-tag"]
        = ("latest", some "No valid version found")
    ∧ ((∀ t ∈ tags, datedBuildTag t = false)
        → GetLatestBitswanGitopsVersion tags = ("latest", some "No valid version found"))
    ∧ (∀ t ∈ tags, datedBuildTag t = true
        → ∃ v, GetLatestBitswanGitopsVersion tags = (v, none) ∧ (v = t ∨ newer v t)) := by
  refine ⟨by decide, by decide, ?_, ?_⟩
  · intro hall
    unfold GetLatestBitswanGitopsVersion
    have : tags.find? (fun t => datedBuildTag t) = none := by
      rw [List.find?_eq_none]
      intro x hx
      simp [hall x hx]
    rw [this]
  · intro t ht hmatch
    unfold GetLatestBitswanGitopsVersion
    rw [find?_eq_head?_filter]
    have htf : t ∈ tags.filter (fun t => datedBuildTag t) :=
      List.mem_filter.2 ⟨ht, hmatch⟩
    rcases hf : tags.filter (fun t => datedBuildTag t) with _ | ⟨v, rest⟩
    · rw [hf] at htf; simp at htf
    · rw [hf] at htf hsorted
      refine ⟨v, rfl, ?_⟩
      rcases List.mem_cons.1 htf with h | h
      · exact Or.inl h.symm
      · exact Or.inr ((List.pairwise_cons.1 hsorted).1 t h)

/-- Witness for C7 at concrete inputs: the sortedness hypothesis is
discharged with the empty tag list. -/
theorem version_resolver_newest_match_witness :
    GetLatestBitswanGitopsVersion ["latest", "2024-11-git-abc123", "bad-tag"]
        = ("2024-11-git-abc123", none)
    ∧ GetLatestBitswanGitopsVersion ["latest", "bad-tag"]
        = ("latest", some "No valid version found") :=
  ⟨(version_resolver_newest_match [] (fun _ _ => True) List.Pairwise.nil).1,
   (version_resolver_newest_match [] (fun _ _ => True) List.Pairwise.nil).2.1⟩

/-- C8: when the recursive chown subprocess fails, `changeOwnership`
succeeds exactly when the directory's observed owning uid equals the
requested uid; in every other case (stat failure included) it surfaces an
error. -/
theorem chown_fallback_succeeds_iff_owner (e : ChownEnv) (uid gid : Nat)
    (h : e.chownOk = false) :
    changeOwnership e uid gid = none
      ↔ ∃ st, e.stat = some st ∧ st.uid = uid := by
  unfold changeOwnership
  rw [h]
  simp only [Bool.false_eq_true, if_false]
  cases hs : e.stat with
  | none => simp
  | some st =>
    by_cases hst : st.uid = uid <;> simp [hst]

/-- Witness for C8: chown failed but the directory is already owned by
uid 1000, so the operation succeeds. -/
theorem chown_fallback_succeeds_iff_owner_witness :
    changeOwnership ⟨false, some ⟨1000, 0⟩⟩ 1000 1000 = none :=
  (chown_fallback_succeeds_iff_owner ⟨false, some ⟨1000, 0⟩⟩ 1000 1000 rfl).2
    ⟨⟨1000, 0⟩, rfl, rfl⟩

/-- C9 (code bug): a fully successful `init` of workspace `demo` creates
`~/.config/bitswan/demo`, but the `list` command reads
`~/.config/bitswan/workspaces` — which that same run never creates — so
`list` fails instead of enumerating the workspace `init` just produced. -/
theorem list_does_not_enumerate_init_workspace :
    (run envAllOk ["demo"] oDefault).outcome = .success
    ∧ gitopsConfigPath "h" "demo" ∈ fsAfterRun envAllOk ["demo"] oDefault
    ∧ listWorkspacesRoot "h" ∉ fsAfterRun envAllOk ["demo"] oDefault
    ∧ listCmd (fsAfterRun envAllOk ["demo"] oDefault) "h"
        = .error "workspaces directory not found" := by
  refine ⟨by decide, by decide, by decide, ?_⟩
  unfold listCmd
  rw [if_neg (by decide)]

/-- C1: when the workspace config directory already exists at the moment
the workspace stage runs, `run` returns the conflict error immediately:
the whole run trace is exactly the trace of the earlier stages — the
conflict-detecting step emits no event, so it creates nothing, removes
nothing and performs no cleanup — and the filesystem is exactly the one
the conflict check observed. -/
theorem conflict_guard_no_side_effects (env : Env) (args : List String) (o : Opts)
    {t0 t1 t2 : List Event}
    (h0 : setupStage env env.fs0 = ⟨t0, .ok⟩)
    (h1 : caddyStage env (applyTrace env.fs0 t0) = ⟨t1, .ok⟩)
    (h2 : certStage env o (applyTrace (applyTrace env.fs0 t0) t1) = ⟨t2, .ok⟩)
    (hex : gitopsConfigPath env.home (gitopsNameOf args)
        ∈ applyTrace (applyTrace (applyTrace env.fs0 t0) t1) t2) :
    run env args o
        = ⟨.errorReturn (.conflict (gitopsNameOf args)), t0 ++ t1 ++ t2⟩
    ∧ fsAfterRun env args o
        = applyTrace (applyTrace (applyTrace env.fs0 t0) t1) t2 := by
  have hws := workspaceStage_of_mem o hex
  have hr := run_workspace_ret h0 h1 h2 hws
  rw [List.append_nil] at hr
  refine ⟨hr, ?_⟩
  unfold fsAfterRun
  rw [hr]
  simp only [applyTrace_append]

/-- Witness for C1: with the workspace directory pre-existing and the
proxy already answering, the run returns the conflict error with an empty
trace. -/
theorem conflict_guard_no_side_effects_witness :
    run { envAllOk with fs0 := [bitswanRoot "h", gitopsConfigPath "h" "demo"] }
        ["demo"] oDefault
      = ⟨.errorReturn (.conflict "demo"), []⟩ :=
  (conflict_guard_no_side_effects
    { envAllOk with fs0 := [bitswanRoot "h", gitopsConfigPath "h" "demo"] }
    ["demo"] oDefault rfl rfl rfl (by decide)).1

/-- The five DeploymentComposer failure modes named by the spec. -/
inductive ComposerFailure where
  | imageResolution
  | routeRegistration
  | composeRender
  | writeStack
  | stackStart

def gitopsImageResolves (env : Env) (o : Opts) : Prop :=
  o.gitopsImage ≠ "" ∨ ∃ v, env.gitopsVersion = some v

def editorImageResolves (env : Env) (o : Opts) : Prop :=
  o.editorImage ≠ "" ∨ ∃ v, env.editorVersion = some v

/-- Which composer step is the first to fail, stated on the environment in
the order the source performs the steps (image lookups, deployment
directory, route registration, compose render, compose write, directory
change, stack start). -/
def composerFailsWith (env : Env) (o : Opts) : ComposerFailure → Prop
  | .imageResolution =>
      (o.gitopsImage = "" ∧ env.gitopsVersion = none) ∨
      (gitopsImageResolves env o ∧ o.editorImage = "" ∧ env.editorVersion = none)
  | .routeRegistration =>
      gitopsImageResolves env o ∧ editorImageResolves env o ∧
      env.mkdirDeployOk = true ∧ env.addRecordsOk = false
  | .composeRender =>
      gitopsImageResolves env o ∧ editorImageResolves env o ∧
      env.mkdirDeployOk = true ∧ env.addRecordsOk = true ∧ env.renderCompose = none
  | .writeStack =>
      gitopsImageResolves env o ∧ editorImageResolves env o ∧
      env.mkdirDeployOk = true ∧ env.addRecordsOk = true ∧
      (∃ yt, env.renderCompose = some yt) ∧ env.writeComposeOk = false
  | .stackStart =>
      gitopsImageResolves env o ∧ editorImageResolves env o ∧
      env.mkdirDeployOk = true ∧ env.addRecordsOk = true ∧
      (∃ yt, env.renderCompose = some yt) ∧ env.writeComposeOk = true ∧
      env.chdirDeployOk = true ∧ env.composeUpOk = false

/-- Every enumerated composer failure is a panic (never a plain return),
so it reaches the deferred workspace cleanup. -/
theorem composerStage_fails_pan (env : Env) (o : Opts) (name : String) (gc : Path)
    (k : ComposerFailure) (hk : composerFailsWith env o k) :
    ∃ e, (composerStage env o name gc).ctl = .pan e := by
  cases k with
  | imageResolution =>
    rcases hk with ⟨hgi, hgv⟩ | ⟨hres, hei, hev⟩
    · exact ⟨.versionLookupGitops,
        by simp [composerStage, StageOut.andThen, stepOk, stepPan, hgi, hgv]⟩
    · rcases hres with hne | ⟨v, hv⟩
      · exact ⟨.versionLookupEditor,
          by simp [composerStage, StageOut.andThen, stepOk, stepPan, hne, hei, hev]⟩
      · exact ⟨.versionLookupEditor,
          by simp [composerStage, StageOut.andThen, stepOk, stepPan, hv, hei, hev]⟩
  | routeRegistration =>
    obtain ⟨hres, hres2, hmk, har⟩ := hk
    refine ⟨.addCaddyRecords, ?_⟩
    rcases hres with hne | ⟨v, hv⟩ <;> rcases hres2 with hne2 | ⟨v2, hv2⟩ <;>
      simp_all [composerStage, StageOut.andThen, stepOk, stepPan, stepRet]
  | composeRender =>
    obtain ⟨hres, hres2, hmk, har, hrc⟩ := hk
    refine ⟨.createComposeFile, ?_⟩
    rcases hres with hne | ⟨v, hv⟩ <;> rcases hres2 with hne2 | ⟨v2, hv2⟩ <;>
      simp_all [composerStage, StageOut.andThen, stepOk, stepPan, stepRet]
  | writeStack =>
    obtain ⟨hres, hres2, hmk, har, ⟨yt, hrc⟩, hwc⟩ := hk
    refine ⟨.writeComposeFile, ?_⟩
    rcases hres with hne | ⟨v, hv⟩ <;> rcases hres2 with hne2 | ⟨v2, hv2⟩ <;>
      simp_all [composerStage, StageOut.andThen, stepOk, stepPan, stepRet]
  | stackStart =>
    obtain ⟨hres, hres2, hmk, har, ⟨yt, hrc⟩, hwc, hcd, hcu⟩ := hk
    refine ⟨.startCompose, ?_⟩
    rcases hres with hne | ⟨v, hv⟩ <;> rcases hres2 with hne2 | ⟨v2, hv2⟩ <;>
      simp_all [composerStage, StageOut.andThen, stepOk, stepPan, stepRet]

/-- C2: whenever the earlier stages and the whole workspace/secrets
provisioning succeeded and the deployment composer then fails at any of
its five enumerated steps, the run ends with the workspace cleanup: the
workspace config directory (and everything below it) does not exist after
the call returns. -/
theorem rollback_completeness (env : Env) (args : List String) (o : Opts)
    {t0 t1 t2 t3 t4 : List Event} (k : ComposerFailure)
    (h0 : setupStage env env.fs0 = ⟨t0, .ok⟩)
    (h1 : caddyStage env (applyTrace env.fs0 t0) = ⟨t1, .ok⟩)
    (h2 : certStage env o (applyTrace (applyTrace env.fs0 t0) t1) = ⟨t2, .ok⟩)
    (h3 : workspaceStage env o (gitopsNameOf args)
        (applyTrace (applyTrace (applyTrace env.fs0 t0) t1) t2) = ⟨t3, .ok⟩)
    (h4 : secretStage env (gitopsConfigPath env.home (gitopsNameOf args)) = ⟨t4, .ok⟩)
    (hk : composerFailsWith env o k) :
    gitopsConfigPath env.home (gitopsNameOf args) ∉ fsAfterRun env args o
    ∧ ∀ q, gitopsConfigPath env.home (gitopsNameOf args) <+: q
        → q ∉ fsAfterRun env args o := by
  obtain ⟨e, he⟩ := composerStage_fails_pan env o
    (gitopsNameOf args) (gitopsConfigPath env.home (gitopsNameOf args)) k hk
  have h5 : composerStage env o (gitopsNameOf args)
      (gitopsConfigPath env.home (gitopsNameOf args))
      = ⟨(composerStage env o (gitopsNameOf args)
          (gitopsConfigPath env.home (gitopsNameOf args))).trace, .pan e⟩ := by
    rw [← he]
  have hr := run_composer_pan h0 h1 h2 h3 h4 h5
  refine ⟨?_, ?_⟩
  · unfold fsAfterRun
    rw [hr]
    exact not_mem_applyTrace_concat_removeAll (List.prefix_refl _)
  · intro q hq
    unfold fsAfterRun
    rw [hr]
    exact not_mem_applyTrace_concat_removeAll hq

/-- Witness for C2: a failing `docker compose up` for the workspace stack
removes the freshly provisioned workspace directory. -/
theorem rollback_completeness_witness :
    gitopsConfigPath "h" "demo"
      ∉ fsAfterRun { envAllOk with composeUpOk := false } ["demo"] oDefault :=
  (rollback_completeness { envAllOk with composeUpOk := false } ["demo"] oDefault
    .stackStart rfl rfl rfl rfl rfl
    ⟨Or.inr ⟨_, rfl⟩, Or.inr ⟨_, rfl⟩, rfl, rfl, ⟨_, rfl⟩, rfl, rfl, rfl⟩).1

/-- C3: once the shared proxy configuration directory exists at the start
of the workspace-scoped stages, it still exists after the run, whatever
happens inside WorkspaceProvisioner, SecretManager or DeploymentComposer:
their direct returns perform no cleanup at all, and their panics remove
only the workspace config directory, which is a different path (a
would-be collision forces the conflict return before any cleanup can
arise). -/
theorem workspace_rollback_preserves_proxy (env : Env) (args : List String) (o : Opts)
    {t0 t1 t2 : List Event}
    (h0 : setupStage env env.fs0 = ⟨t0, .ok⟩)
    (h1 : caddyStage env (applyTrace env.fs0 t0) = ⟨t1, .ok⟩)
    (h2 : certStage env o (applyTrace (applyTrace env.fs0 t0) t1) = ⟨t2, .ok⟩)
    (hc : caddyConfigPath env.home
        ∈ applyTrace (applyTrace (applyTrace env.fs0 t0) t1) t2) :
    caddyConfigPath env.home ∈ fsAfterRun env args o := by
  rcases h3 : workspaceStage env o (gitopsNameOf args)
      (applyTrace (applyTrace (applyTrace env.fs0 t0) t1) t2) with ⟨t3, c3⟩
  have ht3 : ∀ e ∈ t3, removesNothing e = true := by
    intro e he
    refine workspaceStage_removesNothing env o (gitopsNameOf args)
      (applyTrace (applyTrace (applyTrace env.fs0 t0) t1) t2) e ?_
    rw [h3]
    exact he
  have hkeep3 : caddyConfigPath env.home
      ∈ applyTrace (applyTrace (applyTrace (applyTrace env.fs0 t0) t1) t2) t3 :=
    mem_applyTrace_of_mem ht3 hc
  cases c3 with
  | ret e =>
    have hr := run_workspace_ret h0 h1 h2 h3
    unfold fsAfterRun
    rw [hr]
    simp only [applyTrace_append]
    exact hkeep3
  | crash e =>
    have hr := run_workspace_crash h0 h1 h2 h3
    unfold fsAfterRun
    rw [hr]
    simp only [applyTrace_append]
    exact hkeep3
  | pan e =>
    have hnot : gitopsConfigPath env.home (gitopsNameOf args)
        ∉ applyTrace (applyTrace (applyTrace env.fs0 t0) t1) t2 := by
      intro hmem
      have hcontra := workspaceStage_of_mem o hmem
      rw [h3] at hcontra
      simp at hcontra
    have hname : ¬ (gitopsConfigPath env.home (gitopsNameOf args)
        <+: caddyConfigPath env.home) := by
      intro hp
      apply hnot
      rw [gitops_prefix_caddy hp]
      exact hc
    have hr := run_workspace_pan h0 h1 h2 h3
    unfold fsAfterRun
    rw [hr]
    simp only [applyTrace_append]
    rw [applyTrace_cons, applyTrace_nil]
    exact mem_applyEvent_removeAll_of_mem hname hkeep3
  | ok =>
    have hnot : gitopsConfigPath env.home (gitopsNameOf args)
        ∉ applyTrace (applyTrace (applyTrace env.fs0 t0) t1) t2 := by
      intro hmem
      have hcontra := workspaceStage_of_mem o hmem
      rw [h3] at hcontra
      simp at hcontra
    have hname : ¬ (gitopsConfigPath env.home (gitopsNameOf args)
        <+: caddyConfigPath env.home) := by
      intro hp
      apply hnot
      rw [gitops_prefix_caddy hp]
      exact hc
    rcases h4 : secretStage env (gitopsConfigPath env.home (gitopsNameOf args))
      with ⟨t4, c4⟩
    have ht4 : ∀ e ∈ t4, removesNothing e = true := by
      intro e he
      refine secretStage_removesNothing env
        (gitopsConfigPath env.home (gitopsNameOf args)) e ?_
      rw [h4]
      exact he
    have hkeep4 : caddyConfigPath env.home
        ∈ applyTrace (applyTrace (applyTrace (applyTrace (applyTrace env.fs0 t0) t1) t2)
            t3) t4 :=
      mem_applyTrace_of_mem ht4 hkeep3
    cases c4 with
    | ret e =>
      have hr := run_secret_ret h0 h1 h2 h3 h4
      unfold fsAfterRun
      rw [hr]
      simp only [applyTrace_append]
      exact hkeep4
    | crash e =>
      have hr := run_secret_crash h0 h1 h2 h3 h4
      unfold fsAfterRun
      rw [hr]
      simp only [applyTrace_append]
      exact hkeep4
    | pan e =>
      have hr := run_secret_pan h0 h1 h2 h3 h4
      unfold fsAfterRun
      rw [hr]
      simp only [applyTrace_append]
      rw [applyTrace_cons, applyTrace_nil]
      exact mem_applyEvent_removeAll_of_mem hname hkeep4
    | ok =>
      rcases h5 : composerStage env o (gitopsNameOf args)
          (gitopsConfigPath env.home (gitopsNameOf args)) with ⟨t5, c5⟩
      have ht5 : ∀ e ∈ t5, removesNothing e = true := by
        intro e he
        refine composerStage_removesNothing env o (gitopsNameOf args)
          (gitopsConfigPath env.home (gitopsNameOf args)) e ?_
        rw [h5]
        exact he
      have hkeep5 : caddyConfigPath env.home
          ∈ applyTrace (applyTrace (applyTrace (applyTrace (applyTrace
              (applyTrace env.fs0 t0) t1) t2) t3) t4) t5 :=
        mem_applyTrace_of_mem ht5 hkeep4
      cases c5 with
      | ret e =>
        have hr := run_composer_ret h0 h1 h2 h3 h4 h5
        unfold fsAfterRun
        rw [hr]
        simp only [applyTrace_append]
        exact hkeep5
      | crash e =>
        have hr := run_composer_crash h0 h1 h2 h3 h4 h5
        unfold fsAfterRun
        rw [hr]
        simp only [applyTrace_append]
        exact hkeep5
      | pan e =>
        have hr := run_composer_pan h0 h1 h2 h3 h4 h5
        unfold fsAfterRun
        rw [hr]
        simp only [applyTrace_append]
        rw [applyTrace_cons, applyTrace_nil]
        exact mem_applyEvent_removeAll_of_mem hname hkeep5
      | ok =>
        have hr := run_success_eq h0 h1 h2 h3 h4 h5
        unfold fsAfterRun
        rw [hr]
        simp only [applyTrace_append]
        exact hkeep5

/-- Witness for C3: a workspace stack-start failure rolls back the
workspace but leaves the proxy configuration directory in place. -/
theorem workspace_rollback_preserves_proxy_witness :
    caddyConfigPath "h" ∈ fsAfterRun
      { envAllOk with caddyProbeRunning := false, composeUpOk := false }
      ["demo"] oDefault :=
  workspace_rollback_preserves_proxy
    { envAllOk with caddyProbeRunning := false, composeUpOk := false }
    ["demo"] oDefault rfl rfl rfl (by decide)

/-- Where an event of a run trace can come from: one of the six stage
traces, or one of the two cleanup removals. -/
def runEventSource (env : Env) (args : List String) (o : Opts) (e : Event) : Prop :=
  e ∈ (setupStage env env.fs0).trace
  ∨ e ∈ (caddyStage env (applyTrace env.fs0 (setupStage env env.fs0).trace)).trace
  ∨ (∃ fs, e ∈ (certStage env o fs).trace)
  ∨ (∃ fs, e ∈ (workspaceStage env o (gitopsNameOf args) fs).trace)
  ∨ e ∈ (secretStage env (gitopsConfigPath env.home (gitopsNameOf args))).trace
  ∨ e ∈ (composerStage env o (gitopsNameOf args)
      (gitopsConfigPath env.home (gitopsNameOf args))).trace
  ∨ e = .removeAll (caddyConfigPath env.home)
  ∨ e = .removeAll (gitopsConfigPath env.home (gitopsNameOf args))

theorem run_trace_shape {env : Env} {args : List String} {o : Opts} {e : Event}
    (he : e ∈ (run env args o).trace) : runEventSource env args o e := by
  rcases h0 : setupStage env env.fs0 with ⟨t0, c0⟩
  have m0 : e ∈ t0 → e ∈ (setupStage env env.fs0).trace := by
    rw [h0]; exact fun hx => hx
  cases c0 with
  | ret e0 =>
    rw [run_setup_ret h0] at he
    exact Or.inl (m0 he)
  | pan e0 =>
    rw [run_setup_pan h0] at he
    exact Or.inl (m0 he)
  | crash e0 =>
    rw [run_setup_crash h0] at he
    exact Or.inl (m0 he)
  | ok =>
  rcases h1 : caddyStage env (applyTrace env.fs0 t0) with ⟨t1, c1⟩
  have m1 : e ∈ t1
      → e ∈ (caddyStage env (applyTrace env.fs0 (setupStage env env.fs0).trace)).trace := by
    rw [h0, h1]; exact fun hx => hx
  cases c1 with
  | ret e1 =>
    rw [run_caddy_ret h0 h1] at he
    rcases List.mem_append.1 he with hx | hx
    · exact Or.inl (m0 hx)
    · exact Or.inr (Or.inl (m1 hx))
  | pan e1 =>
    rw [run_caddy_pan h0 h1] at he
    simp only [List.mem_append, List.mem_singleton] at he
    rcases he with (hx | hx) | hx
    · exact Or.inl (m0 hx)
    · exact Or.inr (Or.inl (m1 hx))
    · exact Or.inr (Or.inr (Or.inr (Or.inr (Or.inr (Or.inr (Or.inl hx))))))
  | crash e1 =>
    rw [run_caddy_crash h0 h1] at he
    rcases List.mem_append.1 he with hx | hx
    · exact Or.inl (m0 hx)
    · exact Or.inr (Or.inl (m1 hx))
  | ok =>
  rcases h2 : certStage env o (applyTrace (applyTrace env.fs0 t0) t1) with ⟨t2, c2⟩
  have m2 : e ∈ t2 → ∃ fs, e ∈ (certStage env o fs).trace := by
    intro hx
    exact ⟨applyTrace (applyTrace env.fs0 t0) t1, by rw [h2]; exact hx⟩
  cases c2 with
  | ret e2 =>
    rw [run_cert_ret h0 h1 h2] at he
    simp only [List.mem_append] at he
    rcases he with (hx | hx) | hx
    · exact Or.inl (m0 hx)
    · exact Or.inr (Or.inl (m1 hx))
    · exact Or.inr (Or.inr (Or.inl (m2 hx)))
  | pan e2 =>
    rw [run_cert_pan h0 h1 h2] at he
    simp only [List.mem_append, List.mem_singleton] at he
    rcases he with ((hx | hx) | hx) | hx
    · exact Or.inl (m0 hx)
    · exact Or.inr (Or.inl (m1 hx))
    · exact Or.inr (Or.inr (Or.inl (m2 hx)))
    · exact Or.inr (Or.inr (Or.inr (Or.inr (Or.inr (Or.inr (Or.inl hx))))))
  | crash e2 =>
    rw [run_cert_crash h0 h1 h2] at he
    simp only [List.mem_append] at he
    rcases he with (hx | hx) | hx
    · exact Or.inl (m0 hx)
    · exact Or.inr (Or.inl (m1 hx))
    · exact Or.inr (Or.inr (Or.inl (m2 hx)))
  | ok =>
  rcases h3 : workspaceStage env o (gitopsNameOf args)
      (applyTrace (applyTrace (applyTrace env.fs0 t0) t1) t2) with ⟨t3, c3⟩
  have m3 : e ∈ t3 → ∃ fs, e ∈ (workspaceStage env o (gitopsNameOf args) fs).trace := by
    intro hx
    exact ⟨applyTrace (applyTrace (applyTrace env.fs0 t0) t1) t2, by rw [h3]; exact hx⟩
  cases c3 with
  | ret e3 =>
    rw [run_workspace_ret h0 h1 h2 h3] at he
    simp only [List.mem_append] at he
    rcases he with ((hx | hx) | hx) | hx
    · exact Or.inl (m0 hx)
    · exact Or.inr (Or.inl (m1 hx))
    · exact Or.inr (Or.inr (Or.inl (m2 hx)))
    · exact Or.inr (Or.inr (Or.inr (Or.inl (m3 hx))))
  | pan e3 =>
    rw [run_workspace_pan h0 h1 h2 h3] at he
    simp only [List.mem_append, List.mem_singleton] at he
    rcases he with (((hx | hx) | hx) | hx) | hx
    · exact Or.inl (m0 hx)
    · exact Or.inr (Or.inl (m1 hx))
    · exact Or.inr (Or.inr (Or.inl (m2 hx)))
    · exact Or.inr (Or.inr (Or.inr (Or.inl (m3 hx))))
    · exact Or.inr (Or.inr (Or.inr (Or.inr (Or.inr (Or.inr (Or.inr hx))))))
  | crash e3 =>
    rw [run_workspace_crash h0 h1 h2 h3] at he
    simp only [List.mem_append] at he
    rcases he with ((hx | hx) | hx) | hx
    · exact Or.inl (m0 hx)
    · exact Or.inr (Or.inl (m1 hx))
    · exact Or.inr (Or.inr (Or.inl (m2 hx)))
    · exact Or.inr (Or.inr (Or.inr (Or.inl (m3 hx))))
  | ok =>
  rcases h4 : secretStage env (gitopsConfigPath env.home (gitopsNameOf args))
      with ⟨t4, c4⟩
  have m4 : e ∈ t4
      → e ∈ (secretStage env (gitopsConfigPath env.home (gitopsNameOf args))).trace := by
    rw [h4]; exact fun hx => hx
  cases c4 with
  | ret e4 =>
    rw [run_secret_ret h0 h1 h2 h3 h4] at he
    simp only [List.mem_append] at he
    rcases he with (((hx | hx) | hx) | hx) | hx
    · exact Or.inl (m0 hx)
    · exact Or.inr (Or.inl (m1 hx))
    · exact Or.inr (Or.inr (Or.inl (m2 hx)))
    · exact Or.inr (Or.inr (Or.inr (Or.inl (m3 hx))))
    · exact Or.inr (Or.inr (Or.inr (Or.inr (Or.inl (m4 hx)))))
  | pan e4 =>
    rw [run_secret_pan h0 h1 h2 h3 h4] at he
    simp only [List.mem_append, List.mem_singleton] at he
    rcases he with ((((hx | hx) | hx) | hx) | hx) | hx
    · exact Or.inl (m0 hx)
    · exact Or.inr (Or.inl (m1 hx))
    · exact Or.inr (Or.inr (Or.inl (m2 hx)))
    · exact Or.inr (Or.inr (Or.inr (Or.inl (m3 hx))))
    · exact Or.inr (Or.inr (Or.inr (Or.inr (Or.inl (m4 hx)))))
    · exact Or.inr (Or.inr (Or.inr (Or.inr (Or.inr (Or.inr (Or.inr hx))))))
  | crash e4 =>
    rw [run_secret_crash h0 h1 h2 h3 h4] at he
    simp only [List.mem_append] at he
    rcases he with (((hx | hx) | hx) | hx) | hx
    · exact Or.inl (m0 hx)
    · exact Or.inr (Or.inl (m1 hx))
    · exact Or.inr (Or.inr (Or.inl (m2 hx)))
    · exact Or.inr (Or.inr (Or.inr (Or.inl (m3 hx))))
    · exact Or.inr (Or.inr (Or.inr (Or.inr (Or.inl (m4 hx)))))
  | ok =>
  rcases h5 : composerStage env o (gitopsNameOf args)
      (gitopsConfigPath env.home (gitopsNameOf args)) with ⟨t5, c5⟩
  have m5 : e ∈ t5
      → e ∈ (composerStage env o (gitopsNameOf args)
          (gitopsConfigPath env.home (gitopsNameOf args))).trace := by
    rw [h5]; exact fun hx => hx
  cases c5 with
  | ret e5 =>
    rw [run_composer_ret h0 h1 h2 h3 h4 h5] at he
    simp only [List.mem_append] at he
    rcases he with ((((hx | hx) | hx) | hx) | hx) | hx
    · exact Or.inl (m0 hx)
    · exact Or.inr (Or.inl (m1 hx))
    · exact Or.inr (Or.inr (Or.inl (m2 hx)))
    · exact Or.inr (Or.inr (Or.inr (Or.inl (m3 hx))))
    · exact Or.inr (Or.inr (Or.inr (Or.inr (Or.inl (m4 hx)))))
    · exact Or.inr (Or.inr (Or.inr (Or.inr (Or.inr (Or.inl (m5 hx))))))
  | pan e5 =>
    rw [run_composer_pan h0 h1 h2 h3 h4 h5] at he
    simp only [List.mem_append, List.mem_singleton] at he
    rcases he with (((((hx | hx) | hx) | hx) | hx) | hx) | hx
    · exact Or.inl (m0 hx)
    · exact Or.inr (Or.inl (m1 hx))
    · exact Or.inr (Or.inr (Or.inl (m2 hx)))
    · exact Or.inr (Or.inr (Or.inr (Or.inl (m3 hx))))
    · exact Or.inr (Or.inr (Or.inr (Or.inr (Or.inl (m4 hx)))))
    · exact Or.inr (Or.inr (Or.inr (Or.inr (Or.inr (Or.inl (m5 hx))))))
    · exact Or.inr (Or.inr (Or.inr (Or.inr (Or.inr (Or.inr (Or.inr hx))))))
  | crash e5 =>
    rw [run_composer_crash h0 h1 h2 h3 h4 h5] at he
    simp only [List.mem_append] at he
    rcases he with ((((hx | hx) | hx) | hx) | hx) | hx
    · exact Or.inl (m0 hx)
    · exact Or.inr (Or.inl (m1 hx))
    · exact Or.inr (Or.inr (Or.inl (m2 hx)))
    · exact Or.inr (Or.inr (Or.inr (Or.inl (m3 hx))))
    · exact Or.inr (Or.inr (Or.inr (Or.inr (Or.inl (m4 hx)))))
    · exact Or.inr (Or.inr (Or.inr (Or.inr (Or.inr (Or.inl (m5 hx))))))
  | ok =>
    rw [run_success_eq h0 h1 h2 h3 h4 h5] at he
    simp only [List.mem_append] at he
    rcases he with ((((hx | hx) | hx) | hx) | hx) | hx
    · exact Or.inl (m0 hx)
    · exact Or.inr (Or.inl (m1 hx))
    · exact Or.inr (Or.inr (Or.inl (m2 hx)))
    · exact Or.inr (Or.inr (Or.inr (Or.inl (m3 hx))))
    · exact Or.inr (Or.inr (Or.inr (Or.inr (Or.inl (m4 hx)))))
    · exact Or.inr (Or.inr (Or.inr (Or.inr (Or.inr (Or.inl (m5 hx))))))

theorem certs_file_ne_caddyfile {home dom n : String} :
    caddyCertsPath home ++ [dom] ++ [n] ≠ caddyfilePath home := by
  intro h
  have hlen := congrArg List.length h
  simp [caddyCertsPath, caddyfilePath, caddyConfigPath, bitswanRoot] at hlen

theorem certs_file_ne_caddycompose {home dom n : String} :
    caddyCertsPath home ++ [dom] ++ [n] ≠ caddyComposePath home := by
  intro h
  have hlen := congrArg List.length h
  simp [caddyCertsPath, caddyComposePath, caddyConfigPath, bitswanRoot] at hlen

theorem deploy_file_ne_caddyfile {home name : String} :
    gitopsConfigPath home name ++ ["deployment", "docker-compose.yml"]
      ≠ caddyfilePath home := by
  intro h
  have hlen := congrArg List.length h
  simp [gitopsConfigPath, caddyfilePath, caddyConfigPath, bitswanRoot] at hlen

theorem deploy_file_ne_caddycompose {home name : String} :
    gitopsConfigPath home name ++ ["deployment", "docker-compose.yml"]
      ≠ caddyComposePath home := by
  intro h
  have hlen := congrArg List.length h
  simp [gitopsConfigPath, caddyComposePath, caddyConfigPath, bitswanRoot] at hlen

theorem deploy_dir_ne_caddy {home name : String} :
    gitopsConfigPath home name ++ ["deployment"] ≠ caddyConfigPath home := by
  intro h
  have hlen := congrArg List.length h
  simp [gitopsConfigPath, caddyConfigPath, bitswanRoot] at hlen

/-- C4: when the short-timeout liveness probe of the proxy admin endpoint
answers, the whole bootstrap stage is the empty skip, and in the whole run
neither of the two proxy config files (the static Caddyfile and the proxy
compose file) is written or overwritten, and no proxy container stack is
started (no compose-up uses the fixed proxy project name, nor runs in the
proxy config directory). -/
theorem proxy_bootstrap_skipped (env : Env) (args : List String) (o : Opts)
    (h : env.caddyProbeRunning = true) :
    (∀ fs, caddyStage env fs = ⟨[], .ok⟩)
    ∧ Event.writeFile (caddyfilePath env.home) ∉ (run env args o).trace
    ∧ Event.writeFile (caddyComposePath env.home) ∉ (run env args o).trace
    ∧ ∀ pr d, (pr = "bitswan-caddy" ∨ d = caddyConfigPath env.home)
        → Event.composeUp pr d ∉ (run env args o).trace := by
  have hskip : ∀ fs, caddyStage env fs = ⟨[], .ok⟩ := by
    intro fs
    unfold caddyStage
    rw [if_pos h]
    rfl
  refine ⟨hskip, ?_, ?_, ?_⟩
  · intro hmem
    rcases run_trace_shape hmem with hx | hx | ⟨fs, hx⟩ | ⟨fs, hx⟩ | hx | hx | hx | hx
    · rcases setupStage_shape hx with h' | h' <;> simp at h'
    · rw [hskip] at hx
      simp at hx
    · rcases certStage_shape hx
        with ⟨tmp, h'⟩ | ⟨tmp, h'⟩ | h' | ⟨src, dst, h'⟩ | h' | h' | ⟨n, h'⟩ <;>
        try simp at h'
      exact certs_file_ne_caddyfile h'.symm
    · rcases workspaceStage_shape hx
        with h' | h' | h' | h' | h' | h' | h' | h' | h' <;> simp at h'
    · rcases secretStage_shape hx with h' | h' <;> simp at h'
    · rcases composerStage_shape hx with h' | h' | h' | h' | h' <;> try simp at h'
      exact deploy_file_ne_caddyfile h'.symm
    · simp at hx
    · simp at hx
  · intro hmem
    rcases run_trace_shape hmem with hx | hx | ⟨fs, hx⟩ | ⟨fs, hx⟩ | hx | hx | hx | hx
    · rcases setupStage_shape hx with h' | h' <;> simp at h'
    · rw [hskip] at hx
      simp at hx
    · rcases certStage_shape hx
        with ⟨tmp, h'⟩ | ⟨tmp, h'⟩ | h' | ⟨src, dst, h'⟩ | h' | h' | ⟨n, h'⟩ <;>
        try simp at h'
      exact certs_file_ne_caddycompose h'.symm
    · rcases workspaceStage_shape hx
        with h' | h' | h' | h' | h' | h' | h' | h' | h' <;> simp at h'
    · rcases secretStage_shape hx with h' | h' <;> simp at h'
    · rcases composerStage_shape hx with h' | h' | h' | h' | h' <;> try simp at h'
      exact deploy_file_ne_caddycompose h'.symm
    · simp at hx
    · simp at hx
  · intro pr d hprd hmem
    rcases run_trace_shape hmem with hx | hx | ⟨fs, hx⟩ | ⟨fs, hx⟩ | hx | hx | hx | hx
    · rcases setupStage_shape hx with h' | h' <;> simp at h'
    · rw [hskip] at hx
      simp at hx
    · rcases certStage_shape hx
        with ⟨tmp, h'⟩ | ⟨tmp, h'⟩ | h' | ⟨src, dst, h'⟩ | h' | h' | ⟨n, h'⟩ <;>
        simp at h'
    · rcases workspaceStage_shape hx
        with h' | h' | h' | h' | h' | h' | h' | h' | h' <;> simp at h'
    · rcases secretStage_shape hx with h' | h' <;> simp at h'
    · rcases composerStage_shape hx with h' | h' | h' | h' | h' <;> try simp at h'
      rcases hprd with hpr | hd
      · exact site_suffix_ne (gitopsNameOf args) (h'.1.symm.trans hpr)
      · exact deploy_dir_ne_caddy (h'.2.symm.trans hd)
    · simp at hx
    · simp at hx

/-- Witness for C4: with the proxy probe answering, a full run writes no
proxy config file. -/
theorem proxy_bootstrap_skipped_witness :
    Event.writeFile (caddyfilePath "h") ∉ (run envAllOk ["demo"] oDefault).trace :=
  (proxy_bootstrap_skipped envAllOk ["demo"] oDefault rfl).2.1

/-! ## C5: proxy-bootstrap failure handling -/

/-- The proxy-bootstrap failure modes occurring after the static base
configuration was written that the source handles with a panic. -/
inductive CaddyFailure where
  | composeRender
  | composeWrite
  | apiInit

def caddyFailsWith (env : Env) : CaddyFailure → Prop
  | .composeRender => env.renderCaddyComposeOk = false
  | .composeWrite =>
      env.renderCaddyComposeOk = true ∧ env.writeCaddyComposeOk = false
  | .apiInit =>
      env.renderCaddyComposeOk = true ∧ env.writeCaddyComposeOk = true ∧
      env.chdirCaddyOk = true ∧ env.mkdirCaddyCertsOk = true ∧
      env.caddyUpOk = true ∧ env.caddyApiInitOk = false

theorem caddyStage_fails_pan (env : Env) (fs : FS)
    (hprobe : env.caddyProbeRunning = false)
    (hmk : env.mkdirCaddyOk = true) (hwf : env.writeCaddyfileOk = true)
    (k : CaddyFailure) (hk : caddyFailsWith env k) :
    ∃ e, (caddyStage env fs).ctl = .pan e := by
  cases k with
  | composeRender =>
    have hr1 : env.renderCaddyComposeOk = false := hk
    exact ⟨.createCaddyCompose,
      by simp [caddyStage, caddyWriteConfig, StageOut.andThen, stepOk, stepPan,
        hprobe, hmk, hwf, hr1]⟩
  | composeWrite =>
    obtain ⟨hr1, hr2⟩ := hk
    exact ⟨.writeCaddyCompose,
      by simp [caddyStage, caddyWriteConfig, StageOut.andThen, stepOk, stepPan,
        hprobe, hmk, hwf, hr1, hr2]⟩
  | apiInit =>
    obtain ⟨hr1, hr2, hr3, hr4, hr5, hr6⟩ := hk
    refine ⟨.initCaddyApi, ?_⟩
    have hok : (caddyWriteConfig env).ctl = .ok := by
      simp [caddyWriteConfig, StageOut.andThen, stepOk, hmk, hwf, hr1, hr2, hr3]
    have hstart : ∀ fsNow, (caddyStartProxy env fsNow).ctl = .pan .initCaddyApi := by
      intro fsNow
      unfold caddyStartProxy
      split
      · simp [StageOut.andThen, stepOk, stepPan, hr5, hr6]
      · simp [StageOut.andThen, stepOk, stepPan, stepRet, hr4, hr5, hr6]
    unfold caddyStage
    rw [if_neg (by simp [hprobe])]
    simp only [hok]
    exact hstart _

/-- Nothing the caddy stage does removes a path. -/
theorem caddyStage_removesNothing (env : Env) (fs : FS) :
    ∀ e ∈ (caddyStage env fs).trace, removesNothing e = true := by
  intro e he
  rcases caddyStage_shape he with h | h | h | h | h | h | h <;> subst h <;> rfl

/-- A path whose creation is recorded in a trace of non-removing events
exists after the replay. -/
theorem mem_applyTrace_of_mkdirAll {p : Path} {t : List Event}
    (ht : ∀ e ∈ t, removesNothing e = true) (hm : Event.mkdirAll p ∈ t) :
    ∀ fs, p ∈ applyTrace fs t := by
  induction t with
  | nil => simp at hm
  | cons e t ih =>
    intro fs
    rw [applyTrace_cons]
    rcases List.mem_cons.1 hm with he | hm2
    · refine mem_applyTrace_of_mem (fun x hx => ht x (List.mem_cons_of_mem _ hx)) ?_
      rw [← he]
      simp [applyEvent]
    · exact ih (fun x hx => ht x (List.mem_cons_of_mem _ hx)) hm2 _

/-- When the probe fails and the config-directory creation succeeds, the
caddy stage records that creation. -/
theorem caddyStage_mkdir_mem (env : Env) (fs : FS)
    (hprobe : env.caddyProbeRunning = false) (hmk : env.mkdirCaddyOk = true) :
    Event.mkdirAll (caddyConfigPath env.home) ∈ (caddyStage env fs).trace := by
  have hmem : Event.mkdirAll (caddyConfigPath env.home) ∈ (caddyWriteConfig env).trace := by
    unfold caddyWriteConfig
    rw [andThen_trace_of_ok (by simp [stepOk, hmk])]
    rw [if_pos hmk]
    exact List.mem_append_left _ (by simp [stepOk])
  unfold caddyStage
  rw [if_neg (by simp [hprobe])]
  rcases hctl : (caddyWriteConfig env).ctl <;> simp only [hctl] <;>
    first
      | exact List.mem_append_left _ hmem
      | exact hmem

/-- With every step up to the stack start succeeding and the stack start
failing, the caddy stage ends in the direct `startCaddy` return. -/
theorem caddyStage_ret_startCaddy (env : Env) (fs : FS)
    (hprobe : env.caddyProbeRunning = false)
    (hmk : env.mkdirCaddyOk = true) (hwf : env.writeCaddyfileOk = true)
    (hr1 : env.renderCaddyComposeOk = true) (hr2 : env.writeCaddyComposeOk = true)
    (hr3 : env.chdirCaddyOk = true) (hr4 : env.mkdirCaddyCertsOk = true)
    (hup : env.caddyUpOk = false) :
    (caddyStage env fs).ctl = .ret .startCaddy := by
  have hok : (caddyWriteConfig env).ctl = .ok := by
    simp [caddyWriteConfig, StageOut.andThen, stepOk, hmk, hwf, hr1, hr2, hr3]
  have hstart : ∀ fsNow, (caddyStartProxy env fsNow).ctl = .ret .startCaddy := by
    intro fsNow
    unfold caddyStartProxy
    split
    · simp [StageOut.andThen, stepOk, stepRet, hup]
    · simp [StageOut.andThen, stepOk, stepRet, hr4, hup]
  unfold caddyStage
  rw [if_neg (by simp [hprobe])]
  simp only [hok]
  exact hstart _

/-- With the probe failing and the proxy config-directory creation itself
failing, the caddy stage performs nothing and returns directly. -/
theorem caddyStage_mkdir_fail (env : Env) (fs : FS)
    (hprobe : env.caddyProbeRunning = false) (hmk : env.mkdirCaddyOk = false) :
    caddyStage env fs = ⟨[], .ret .createCaddyConfigDir⟩ := by
  have hcw : caddyWriteConfig env = ⟨[], .ret .createCaddyConfigDir⟩ := by
    simp [caddyWriteConfig, StageOut.andThen, stepRet, hmk]
  unfold caddyStage
  rw [if_neg (by simp [hprobe])]
  simp only [hcw]

/-- C5 (counterexample to the claim as stated): every external step of the
proxy bootstrap succeeds except the `docker compose up` stack start.  The
run returns the error directly — no panic, no recover — the trace
contains no removal at all, and the proxy config directory (with the
already-written base configuration inside it) is still present
afterwards, contradicting the claimed removal of the entire proxy config
directory on stack-startup failure. -/
theorem stack_start_failure_no_rollback :
    (run { envAllOk with caddyProbeRunning := false, caddyUpOk := false }
        ["demo"] oDefault).outcome = .errorReturn .startCaddy
    ∧ caddyConfigPath "h" ∈ fsAfterRun
        { envAllOk with caddyProbeRunning := false, caddyUpOk := false } ["demo"] oDefault
    ∧ caddyfilePath "h" ∈ fsAfterRun
        { envAllOk with caddyProbeRunning := false, caddyUpOk := false } ["demo"] oDefault
    ∧ ((run { envAllOk with caddyProbeRunning := false, caddyUpOk := false }
        ["demo"] oDefault).trace.all removesNothing) = true := by decide

/-- C5 (amended): with the proxy admin endpoint not answering —
(a) a failure at compose rendering, compose writing, or admin-API
initialization panics and triggers removal of the entire proxy config
directory; (b) a stack-startup failure is returned directly, with no
removal: the proxy config directory is left in place; (c) a failure
creating the proxy config directory is returned directly before anything
was written — the run performs exactly the setup-stage events. -/
theorem proxy_bootstrap_failure_amended (env : Env) (args : List String) (o : Opts)
    {t0 : List Event}
    (h0 : setupStage env env.fs0 = ⟨t0, .ok⟩)
    (hprobe : env.caddyProbeRunning = false) :
    (∀ k, caddyFailsWith env k → env.mkdirCaddyOk = true → env.writeCaddyfileOk = true
      → ∃ e, (run env args o).outcome = .recovered e
          ∧ ∀ q, caddyConfigPath env.home <+: q → q ∉ fsAfterRun env args o)
    ∧ (env.mkdirCaddyOk = true → env.writeCaddyfileOk = true
        → env.renderCaddyComposeOk = true → env.writeCaddyComposeOk = true
        → env.chdirCaddyOk = true → env.mkdirCaddyCertsOk = true
        → env.caddyUpOk = false
      → (run env args o).outcome = .errorReturn .startCaddy
          ∧ caddyConfigPath env.home ∈ fsAfterRun env args o)
    ∧ (env.mkdirCaddyOk = false
      → run env args o = ⟨.errorReturn .createCaddyConfigDir, t0⟩) := by
  refine ⟨?_, ?_, ?_⟩
  · intro k hk hmk hwf
    obtain ⟨e, he⟩ := caddyStage_fails_pan env (applyTrace env.fs0 t0) hprobe hmk hwf k hk
    have h1 : caddyStage env (applyTrace env.fs0 t0)
        = ⟨(caddyStage env (applyTrace env.fs0 t0)).trace, .pan e⟩ := by
      rw [← he]
    have hr := @run_caddy_pan env args o _ _ e h0 h1
    refine ⟨e, ?_, ?_⟩
    · rw [hr]
    · intro q hq
      unfold fsAfterRun
      rw [hr]
      exact not_mem_applyTrace_concat_removeAll hq
  · intro hmk hwf hr1 hr2 hr3 hr4 hup
    have hctl := caddyStage_ret_startCaddy env (applyTrace env.fs0 t0)
      hprobe hmk hwf hr1 hr2 hr3 hr4 hup
    have h1 : caddyStage env (applyTrace env.fs0 t0)
        = ⟨(caddyStage env (applyTrace env.fs0 t0)).trace, .ret .startCaddy⟩ := by
      rw [← hctl]
    have hr := @run_caddy_ret env args o _ _ _ h0 h1
    refine ⟨by rw [hr], ?_⟩
    unfold fsAfterRun
    rw [hr]
    simp only [applyTrace_append]
    exact mem_applyTrace_of_mkdirAll (caddyStage_removesNothing env _)
      (caddyStage_mkdir_mem env _ hprobe hmk) _
  · intro hmk
    have h1 := caddyStage_mkdir_fail env (applyTrace env.fs0 t0) hprobe hmk
    have hr := @run_caddy_ret env args o _ _ _ h0 h1
    rw [List.append_nil] at hr
    exact hr

/-- Witness for the amended C5, part (a): a failing admin-API
initialization rolls the whole proxy config directory back. -/
theorem proxy_bootstrap_failure_amended_witness :
    ∃ e, (run { envAllOk with caddyProbeRunning := false, caddyApiInitOk := false }
        ["demo"] oDefault).outcome = .recovered e
      ∧ ∀ q, caddyConfigPath "h" <+: q
          → q ∉ fsAfterRun
              { envAllOk with caddyProbeRunning := false, caddyApiInitOk := false }
              ["demo"] oDefault :=
  (proxy_bootstrap_failure_amended
    { envAllOk with caddyProbeRunning := false, caddyApiInitOk := false }
    ["demo"] oDefault rfl rfl).1 .apiInit ⟨rfl, rfl, rfl, rfl, rfl, rfl⟩ rfl rfl

/-- A workspace stage that ends in normal continuation recorded the
worktree-add, on the orphan branch named after the workspace, at the
gitops subdirectory. -/
theorem workspaceStage_ok_worktree (env : Env) (o : Opts) (name : String) (fs : FS)
    (h : (workspaceStage env o name fs).ctl = .ok) :
    Event.worktreeAdd name (gitopsConfigPath env.home name ++ ["gitops"])
      ∈ (workspaceStage env o name fs).trace := by
  unfold workspaceStage at h ⊢
  by_cases hmem : gitopsConfigPath env.home name ∈ fs
  · rw [if_pos hmem] at h
    simp at h
  · rw [if_neg hmem] at h ⊢
    obtain ⟨ha, h⟩ := andThen_ok h
    rw [andThen_trace_of_ok ha]
    refine List.mem_append_right _ ?_
    obtain ⟨hb, h⟩ := andThen_ok h
    rw [andThen_trace_of_ok hb]
    refine List.mem_append_right _ ?_
    obtain ⟨hcw, h⟩ := andThen_ok h
    rw [andThen_trace_of_ok hcw]
    refine List.mem_append_right _ ?_
    obtain ⟨hwt, h⟩ := andThen_ok h
    rw [andThen_trace_of_ok hwt]
    exact List.mem_append_left _ (by simp)

/-- C6: every successful run recorded exactly one worktree creation, and
its orphan branch name is exactly the workspace name (with the worktree
at the workspace's gitops subdirectory). -/
theorem worktree_branch_eq_workspace_name (env : Env) (args : List String) (o : Opts)
    (h : (run env args o).outcome = .success) :
    Event.worktreeAdd (gitopsNameOf args)
        (gitopsConfigPath env.home (gitopsNameOf args) ++ ["gitops"])
      ∈ (run env args o).trace
    ∧ ∀ b d, Event.worktreeAdd b d ∈ (run env args o).trace
        → b = gitopsNameOf args
          ∧ d = gitopsConfigPath env.home (gitopsNameOf args) ++ ["gitops"] := by
  constructor
  · rcases h0 : setupStage env env.fs0 with ⟨t0, c0⟩
    cases c0 with
    | ret e0 => rw [run_setup_ret h0] at h; simp at h
    | pan e0 => rw [run_setup_pan h0] at h; simp at h
    | crash e0 => rw [run_setup_crash h0] at h; simp at h
    | ok =>
    rcases h1 : caddyStage env (applyTrace env.fs0 t0) with ⟨t1, c1⟩
    cases c1 with
    | ret e1 => rw [run_caddy_ret h0 h1] at h; simp at h
    | pan e1 => rw [run_caddy_pan h0 h1] at h; simp at h
    | crash e1 => rw [run_caddy_crash h0 h1] at h; simp at h
    | ok =>
    rcases h2 : certStage env o (applyTrace (applyTrace env.fs0 t0) t1) with ⟨t2, c2⟩
    cases c2 with
    | ret e2 => rw [run_cert_ret h0 h1 h2] at h; simp at h
    | pan e2 => rw [run_cert_pan h0 h1 h2] at h; simp at h
    | crash e2 => rw [run_cert_crash h0 h1 h2] at h; simp at h
    | ok =>
    rcases h3 : workspaceStage env o (gitopsNameOf args)
        (applyTrace (applyTrace (applyTrace env.fs0 t0) t1) t2) with ⟨t3, c3⟩
    cases c3 with
    | ret e3 => rw [run_workspace_ret h0 h1 h2 h3] at h; simp at h
    | pan e3 => rw [run_workspace_pan h0 h1 h2 h3] at h; simp at h
    | crash e3 => rw [run_workspace_crash h0 h1 h2 h3] at h; simp at h
    | ok =>
    rcases h4 : secretStage env (gitopsConfigPath env.home (gitopsNameOf args))
        with ⟨t4, c4⟩
    cases c4 with
    | ret e4 => rw [run_secret_ret h0 h1 h2 h3 h4] at h; simp at h
    | pan e4 => rw [run_secret_pan h0 h1 h2 h3 h4] at h; simp at h
    | crash e4 => rw [run_secret_crash h0 h1 h2 h3 h4] at h; simp at h
    | ok =>
    rcases h5 : composerStage env o (gitopsNameOf args)
        (gitopsConfigPath env.home (gitopsNameOf args)) with ⟨t5, c5⟩
    cases c5 with
    | ret e5 => rw [run_composer_ret h0 h1 h2 h3 h4 h5] at h; simp at h
    | pan e5 => rw [run_composer_pan h0 h1 h2 h3 h4 h5] at h; simp at h
    | crash e5 => rw [run_composer_crash h0 h1 h2 h3 h4 h5] at h; simp at h
    | ok =>
      rw [run_success_eq h0 h1 h2 h3 h4 h5]
      have hw : Event.worktreeAdd (gitopsNameOf args)
          (gitopsConfigPath env.home (gitopsNameOf args) ++ ["gitops"]) ∈ t3 := by
        have := workspaceStage_ok_worktree env o (gitopsNameOf args)
          (applyTrace (applyTrace (applyTrace env.fs0 t0) t1) t2)
          (by rw [h3])
        rw [h3] at this
        exact this
      exact List.mem_append_left _ (List.mem_append_left _
        (List.mem_append_right _ hw))
  · intro b d hbd
    rcases run_trace_shape hbd with hx | hx | ⟨fs, hx⟩ | ⟨fs, hx⟩ | hx | hx | hx | hx
    · rcases setupStage_shape hx with h' | h' <;> simp at h'
    · rcases caddyStage_shape hx with h' | h' | h' | h' | h' | h' | h' <;> simp at h'
    · rcases certStage_shape hx
        with ⟨tmp, h'⟩ | ⟨tmp, h'⟩ | h' | ⟨src, dst, h'⟩ | h' | h' | ⟨n, h'⟩ <;>
        simp at h'
    · rcases workspaceStage_shape hx
        with h' | h' | h' | h' | h' | h' | h' | h' | h' <;> try simp at h'
      exact h'
    · rcases secretStage_shape hx with h' | h' <;> simp at h'
    · rcases composerStage_shape hx with h' | h' | h' | h' | h' <;> simp at h'
    · simp at hx
    · simp at hx

/-- Witness for C6: the successful concrete run created the worktree on
the branch named after the workspace. -/
theorem worktree_branch_eq_workspace_name_witness :
    Event.worktreeAdd "demo" (gitopsConfigPath "h" "demo" ++ ["gitops"])
      ∈ (run envAllOk ["demo"] oDefault).trace :=
  (worktree_branch_eq_workspace_name envAllOk ["demo"] oDefault (by decide)).1

/-- C10: the init command accepts exactly one or two positional
arguments, and the workspace name comes from the first argument only in
the one-argument case — with two arguments the default name `gitops` is
used and neither argument is consulted. -/
theorem init_two_args_use_default_name :
    (∀ n : Nat, initArgsValid n = true ↔ (n = 1 ∨ n = 2))
    ∧ (∀ a b : String, gitopsNameOf [a, b] = "gitops")
    ∧ (∀ a : String, gitopsNameOf [a] = a) := by
  refine ⟨?_, fun a b => rfl, fun a => rfl⟩
  intro n
  unfold initArgsValid
  simp only [Bool.and_eq_true, decide_eq_true_eq]
  omega

end BGC
